import Mathlib

/-!
Verification of the media-downloader bot's extraction core.

This file shallowly embeds the Python sources of the repository
(`src/bot/services/reddit.py`, `src/bot/services/twitter.py`,
`src/bot/services/tiktok.py`, `src/bot/utils/chunk.py`,
`src/bot/utils/telegram_media.py`) into Lean and proves, or refutes,
the frozen claims about them.

Conventions of the embedding:
* JSON payloads (Python's nested dict/list/str/int values as produced by
  `response.json()`) are modelled by the inductive type `JVal`.  Numbers are
  modelled as integers (no claim depends on floats).  Python dicts are
  modelled as association lists in insertion order with unique keys
  (JSON objects), looked up by first match.
* Python truthiness, `dict.get`, iteration, `or`, `int(...)`, `str.lower()`
  and friends are modelled by the `py...`/`j...` helpers below, including
  the exceptions they raise on mistyped values (`PyErr.typeError` for
  `AttributeError`s such as calling `.get`/`.lower`/`.startswith` on a
  non-dict/non-string, `PyErr.valueError` for `int` applied to a
  non-numeric string).  Fallible code therefore lives in
  `Except PyErr`.
* Platform download errors (`RedditDownloadError`, `TwitterDownloadError`)
  are modelled by `PyErr.downloadError` carrying the exact message string
  from the source; `httpx.Response.raise_for_status` is modelled by
  `PyErr.httpStatusError`.
* Python's string methods (`strip`, `lower`, `split`, `startswith`,
  `endswith`, the `in` substring test, `int(str)`) are modelled by
  structural functions on the character list of the string (`strTrim`,
  `strLower`, `strSplitOn`, `strStartsWith`, `strEndsWith`, `strContains`,
  `pyParseInt`), so concrete instances evaluate inside the kernel.
-/

/-! ## A loose JSON value type and Python-semantics helpers -/

inductive JVal where
  | null
  | bool (b : Bool)
  | num (n : Int)
  | str (s : String)
  | arr (elems : List JVal)
  | obj (fields : List (String × JVal))

instance : Inhabited JVal := ⟨.null⟩

deriving instance DecidableEq for Except

/-- Python exceptions that can escape the embedded functions. -/
inductive PyErr where
  /-- a platform download error (`RedditDownloadError` / `TwitterDownloadError`)
      carrying the message it was raised with -/
  | downloadError (msg : String)
  /-- an `AttributeError`/`TypeError` from using a mistyped value -/
  | typeError
  /-- a `ValueError`, e.g. `int` applied to a non-numeric string -/
  | valueError
  /-- `httpx.HTTPStatusError` raised by `Response.raise_for_status` -/
  | httpStatusError (status : Nat)
deriving Repr, DecidableEq

namespace JVal

/-- Python truthiness of a JSON value. -/
def truthy : JVal → Bool
  | .null => false
  | .bool b => b
  | .num n => n != 0
  | .str s => s != ""
  | .arr l => !l.isEmpty
  | .obj f => !f.isEmpty

def isObj : JVal → Bool
  | .obj _ => true
  | _ => false

def isStr : JVal → Bool
  | .str _ => true
  | _ => false

/-- First-match lookup in an object's field list (JSON objects have unique
keys, so this agrees with Python dict lookup). -/
def lookupField : List (String × JVal) → String → Option JVal
  | [], _ => none
  | (k, v) :: rest, key => if k = key then some v else lookupField rest key

/-- Python `d.get(k)` on a value known to be a dict: the value if present,
`None` otherwise.  On a non-dict this defensive variant returns `None`
(use `pyGet` where the source may call `.get` on a mistyped value). -/
def objGet (v : JVal) (key : String) : JVal :=
  match v with
  | .obj fields => (lookupField fields key).getD .null
  | _ => .null

end JVal

/-! ## String helpers mirroring the Python string methods used

All of them are defined structurally on the character list of the string so
that concrete instances evaluate inside the kernel. -/

/-- Python `s.strip()` on a character list: leading and trailing whitespace
removed. -/
def strTrimChars (l : List Char) : List Char :=
  ((l.dropWhile Char.isWhitespace).reverse.dropWhile Char.isWhitespace).reverse

/-- Python `s.strip()` (ASCII whitespace). -/
def strTrim (s : String) : String :=
  (strTrimChars s.toList).asString

/-- Python `s.lower()` (ASCII letters; all strings compared after lowering
in the sources are ASCII keywords). -/
def strLower (s : String) : String :=
  (s.toList.map Char.toLower).asString

/-- Python `s.split(sep)` for a single-character separator, on character
lists: empty parts are kept, and the empty string yields one empty part. -/
def splitCharsOn (sep : Char) : List Char → List (List Char)
  | [] => [[]]
  | x :: rest =>
    let r := splitCharsOn sep rest
    if x = sep then [] :: r
    else (x :: r.headD []) :: r.tail

/-- Python `s.split(sep)` for a single-character separator. -/
def strSplitOn (s : String) (sep : Char) : List String :=
  (splitCharsOn sep s.toList).map List.asString

/-- Decimal digit-run parsing for `int(str)`: all characters must be
digits and at least one must be present. -/
def parseDigits (ds : List Char) : Option Nat :=
  if !ds.isEmpty && ds.all Char.isDigit then
    some (ds.foldl (fun acc c => acc * 10 + (c.toNat - '0'.toNat)) 0)
  else none

/-- Python `int(s)` for a string argument: optional sign after stripping
whitespace, then a digit run; anything else fails (`ValueError`). -/
def pyParseInt (s : String) : Option Int :=
  match strTrimChars s.toList with
  | '-' :: ds => (parseDigits ds).map fun n => -(n : Int)
  | '+' :: ds => (parseDigits ds).map fun n => (n : Int)
  | ds => (parseDigits ds).map fun n => (n : Int)

/-- Python `s.startswith(pre)`. -/
def strStartsWith (s pre : String) : Bool :=
  pre.toList.isPrefixOf s.toList

/-- Python `s.endswith(suf)`. -/
def strEndsWith (s suf : String) : Bool :=
  suf.toList.isSuffixOf s.toList

/-- Membership of `pat` as a contiguous substring of `s` (Python `pat in s`),
decided on the character lists. -/
def listIsInfixOf [DecidableEq α] (pat l : List α) : Bool :=
  decide (pat <:+: l)

/-- Python `pat in s` for strings. -/
def strContains (s pat : String) : Bool :=
  listIsInfixOf pat.toList s.toList

/-- Python `s.split(c, 1)[0]`: the part of `s` before the first occurrence
of the character `c` (all of `s` when `c` does not occur). -/
def splitBefore (s : String) (c : Char) : String :=
  (s.toList.takeWhile fun x => x ≠ c).asString

/-- Python's single left-to-right pass of `s.replace("&amp;", "&")`,
specialised to that pattern, on character lists: each non-overlapping
occurrence of `&amp;` is replaced by `&`, scanning resumes after the
replaced occurrence. -/
def replaceAmpChars : List Char → List Char
  | '&' :: 'a' :: 'm' :: 'p' :: ';' :: rest => '&' :: replaceAmpChars rest
  | c :: rest => c :: replaceAmpChars rest
  | [] => []

/-- Python `s.replace("&amp;", "&")` on strings. -/
def replaceAmp (s : String) : String :=
  (replaceAmpChars s.toList).asString

/-- The protocol-relative rewrite shared by all three normalizers:
`if candidate.startswith("//"): candidate = "https:" + candidate`. -/
def protocolFix (candidate : String) : String :=
  if strStartsWith candidate "//" then "https:" ++ candidate else candidate


/-- Python `x.get(k)` where `x` may be mistyped: an `AttributeError`
(`PyErr.typeError`) when `x` is not a dict. -/
def pyGet (v : JVal) (key : String) : Except PyErr JVal :=
  match v with
  | .obj fields => .ok ((JVal.lookupField fields key).getD .null)
  | _ => .error .typeError

/-- Python `a or b` on JSON values (short-circuit on the truthiness of `a`). -/
def jor (a b : JVal) : JVal :=
  if a.truthy then a else b

/-- Python iteration `for x in v`: list elements, the characters of a string
(as one-character strings), the keys of a dict; `TypeError` otherwise. -/
def pyIter (v : JVal) : Except PyErr (List JVal) :=
  match v with
  | .arr l => .ok l
  | .str s => .ok (s.toList.map fun c => .str (String.singleton c))
  | .obj fields => .ok (fields.map fun kv => .str kv.1)
  | _ => .error .typeError

/-- Python `v.lower()`: only strings have `.lower`, anything else raises. -/
def pyLower (v : JVal) : Except PyErr String :=
  match v with
  | .str s => .ok (strLower s)
  | _ => .error .typeError

/-- Python `v.strip()`: only strings have `.strip`, anything else raises. -/
def pyStrip (v : JVal) : Except PyErr String :=
  match v with
  | .str s => .ok (strTrim s)
  | _ => .error .typeError

/-- Coerce to a string where the source calls a string method (e.g.
`url.startswith`) on the value: raises on non-strings. -/
def asStr (v : JVal) : Except PyErr String :=
  match v with
  | .str s => .ok s
  | _ => .error .typeError

/-- Python `int(v)` as a partial conversion: integers themselves, bools
(`int(True) = 1`), and numeric strings convert; everything else is `none`
(a `TypeError`/`ValueError` in Python). -/
def pyIntOpt (v : JVal) : Option Int :=
  match v with
  | .num n => some n
  | .bool b => some (cond b 1 0)
  | .str s => pyParseInt s
  | _ => none

/-- Python `int(v)` raising `TypeError`/`ValueError` as `int` does. -/
def pyInt (v : JVal) : Except PyErr Int :=
  match v with
  | .num n => .ok n
  | .bool b => .ok (cond b 1 0)
  | .str s =>
    match pyParseInt s with
    | some n => .ok n
    | none => .error .valueError
  | _ => .error .typeError

/-- Structural size of a JSON value, used as a fuel bound for the one
recursive traversal of the sources (Reddit's crosspost recursion): any
nested value sits at depth strictly below the size of the whole. -/
def jsize : JVal → Nat
  | .null => 1
  | .bool _ => 1
  | .num _ => 1
  | .str _ => 1
  | .arr l => 1 + (l.attach.map fun v => jsize v.1).sum
  | .obj f => 1 + (f.attach.map fun kv => jsize kv.1.2).sum
decreasing_by
  · simp_wf; have := List.sizeOf_lt_of_mem v.2; omega
  · simp_wf
    have := List.sizeOf_lt_of_mem kv.2
    have h2 : sizeOf kv.1.2 < sizeOf kv.1 := by
      rcases kv.1 with ⟨a, b⟩; simp
    omega

/-- Truthiness of Python's `str | None` (`None` and `""` are falsy). -/
def optStrTruthy : Option String → Bool
  | none => false
  | some s => s != ""

/-- Convenience lookup into a field list with Python's `None` default
(`fields.get(k)` on a known dict). -/
def jGetF (fields : List (String × JVal)) (k : String) : JVal :=
  (JVal.lookupField fields k).getD .null

/-! ## The three URL normalizers

`RedditDownloader._normalize_url` (reddit.py lines 379-391),
`TwitterDownloader._normalize_url` (twitter.py lines 213-217) and
`TikTokDownloader._normalize_photo_url` (tiktok.py lines 243-252). -/

namespace RedditDownloader

/-- Embedding of `RedditDownloader._normalize_url` for a string argument
(the `url is None` case of the `str | None` parameter trivially returns
`None` and is covered by `url = ""` sharing the same falsy branch). -/
def normalize_url (url : String) : Option String :=
  if url = "" then none
  else
    let candidate := strTrim url
    if candidate = "" then none
    else
      let candidate := replaceAmp candidate
      let candidate := protocolFix candidate
      if strStartsWith candidate "http://" || strStartsWith candidate "https://" then
        some candidate
      else none

/-- Embedding of `RedditDownloader._is_image_url`. -/
def is_image_url (url : String) : Bool :=
  let normalized := splitBefore (strLower url) '?'
  [".jpg", ".jpeg", ".png", ".gif", ".webp"].any fun ext => strEndsWith normalized ext

/-- Embedding of `RedditDownloader._is_video_url`. -/
def is_video_url (url : String) : Bool :=
  let normalized := splitBefore (strLower url) '?'
  ([".mp4", ".mov", ".m4v", ".webm"].any fun ext => strEndsWith normalized ext)
    || strContains normalized "v.redd.it"

end RedditDownloader

namespace TwitterDownloader

/-- Embedding of `TwitterDownloader._normalize_url`: only the
protocol-relative rewrite, everything else is returned unchanged. -/
def normalize_url (url : String) : String :=
  protocolFix url

/-- Embedding of `TwitterDownloader._is_video_url`. -/
def is_video_url (url : String) : Bool :=
  let lowered := strLower url
  if strContains lowered "video.twimg.com" then true
  else
    let bare := splitBefore lowered '?'
    [".mp4", ".mov", ".m4v", ".webm", ".mkv", ".m3u8"].any fun ext => strEndsWith bare ext

end TwitterDownloader

namespace TikTokDownloader

/-- Embedding of `TikTokDownloader._normalize_photo_url`. -/
def normalize_photo_url (url : String) : Option String :=
  let candidate := strTrim url
  if candidate = "" then none
  else
    let candidate := protocolFix candidate
    if strStartsWith candidate "http://" || strStartsWith candidate "https://" then
      some candidate
    else none

end TikTokDownloader

/-! ## Album batching (`src/bot/utils/chunk.py`) -/

/-- The loop body of `chunked`: `bucket` accumulates items in order and is
emitted whenever it reaches `size`; a non-empty leftover bucket is emitted
at the end.  This mirrors the generator's single pass over the sequence. -/
def chunkGo (size : Nat) (bucket : List α) : List α → List (List α)
  | [] => if bucket.isEmpty then [] else [bucket]
  | x :: xs =>
    let bucket' := bucket ++ [x]
    if bucket'.length = size then bucket' :: chunkGo size [] xs
    else chunkGo size bucket' xs

/-- Embedding of `chunked` (chunk.py lines 10-24).  A non-positive chunk
size raises `ValueError` (on `Nat` the non-positive sizes collapse to 0). -/
def chunked (l : List α) (size : Nat) : Except String (List (List α)) :=
  if size = 0 then .error "Chunk size must be positive"
  else .ok (chunkGo size [] l)

/-! ## Reddit service (`src/bot/services/reddit.py`) -/

namespace RedditDownloader

/-- Result type of `RedditDownloader._build_asset`. -/
structure RedditMediaAsset where
  caption : String
  photos : List String
  video_url : Option String
deriving Repr, DecidableEq

def resolveErrMsg : String := "Reddit bağlantısı çözümlenemedi."

def postIdErrMsg : String := "Reddit gönderi kimliği bulunamadı."

def noMediaMsg : String := "Paylaşımda indirilebilir medya bulunamadı."

def tokenErrMsg : String := "Reddit API tokenı alınamadı."

/-! ### URL resolution (`_extract_post_id`, reddit.py lines 86-112) -/

/-- Characters allowed in a URL scheme by `urllib.parse`. -/
def schemeChar (c : Char) : Bool :=
  c.isAlphanum || c == '+' || c == '-' || c == '.'

/-- The scheme-stripping step of `urllib.parse.urlsplit`: when the text
before the first `:` is a non-empty valid scheme starting with a letter,
drop it together with the colon. -/
def stripScheme (cs : List Char) : List Char :=
  let pre := cs.takeWhile fun c => c != ':'
  if pre.length < cs.length && !pre.isEmpty && (pre.headD 'a').isAlpha && pre.all schemeChar then
    cs.drop (pre.length + 1)
  else cs

/-- The netloc and path components of `urllib.parse.urlparse(url)` (the
only components `_extract_post_id` reads; query and fragment are split off
exactly as `urlsplit` does). -/
def pyUrlsplitNetlocPath (url : String) : String × String :=
  let cs := stripScheme url.toList
  let (netloc, rest) :=
    if ('/' :: '/' :: []).isPrefixOf cs then
      let after := cs.drop 2
      (after.takeWhile fun c => c != '/' && c != '?' && c != '#',
       after.dropWhile fun c => c != '/' && c != '?' && c != '#')
    else ([], cs)
  let path := (rest.takeWhile fun c => c != '#').takeWhile fun c => c != '?'
  (netloc.asString, path.asString)

/-- Python `[part for part in path.split("/") if part]`. -/
def path_parts_of (path : String) : List String :=
  (strSplitOn path '/').filter fun part => part ≠ ""

/-- Python `str.isalnum()` (restricted to the ASCII alphanumerics; Reddit
post ids are ASCII base-36). -/
def isAlnumStr (s : String) : Bool :=
  s != "" && s.toList.all Char.isAlphanum

/-- The `comments` scan of `_extract_post_id`: the path part following the
first `comments` segment that has a successor. -/
def comments_candidate : List String → Option String
  | [] => none
  | p :: rest => if strLower p = "comments" then rest.head? else comments_candidate rest

/-- Candidate id selection of `_extract_post_id` (lines 91-104): the first
path part on the short domain; otherwise the part after `comments`, else
the part after a leading `gallery`/`poll`, else a sole path part. -/
def post_id_candidate (netloc : String) (path_parts : List String) : Option String :=
  if strEndsWith netloc "redd.it" then path_parts.head?
  else
    match comments_candidate path_parts with
    | some c => some c
    | none =>
      if path_parts.isEmpty then none
      else if decide (strLower (path_parts.headD "") ∈ ["gallery", "poll"]) && decide (2 ≤ path_parts.length) then
        path_parts[1]?
      else if path_parts.length = 1 then path_parts.head?
      else none

/-- Embedding of `_extract_post_id` on already-parsed netloc and path:
the netloc is lowered, the path split into its non-empty parts, and the
candidate id (query and fragment stripped) must be non-empty and
alphanumeric. -/
def extract_post_id_core (netloc path : String) : Except PyErr String :=
  match post_id_candidate (strLower netloc) (path_parts_of path) with
  | none => .error (.downloadError resolveErrMsg)
  | some c =>
    if c = "" then .error (.downloadError resolveErrMsg)
    else
      if splitBefore (splitBefore c '?') '#' = "" ||
          !isAlnumStr (splitBefore (splitBefore c '?') '#') then
        .error (.downloadError postIdErrMsg)
      else .ok (splitBefore (splitBefore c '?') '#')

/-- Embedding of `RedditDownloader._extract_post_id` (lines 86-112). -/
def extract_post_id (post_url : String) : Except PyErr String :=
  let parsed := pyUrlsplitNetlocPath post_url
  extract_post_id_core parsed.1 parsed.2

/-! ### Gallery and photo extraction (reddit.py lines 245-323) -/

/-- The source scan of `_resolve_gallery_url` (lines 298-302): the first
source whose `u` or `url` is a string with non-empty strip. -/
def firstSourceUrl : List JVal → Option String
  | [] => none
  | source :: rest =>
    match jor (source.objGet "u") (source.objGet "url") with
    | .str url => if strTrim url ≠ "" then some url else firstSourceUrl rest
    | _ => firstSourceUrl rest

/-- Embedding of `RedditDownloader._resolve_gallery_url` (lines 284-302). -/
def resolve_gallery_url (entry : JVal) : Except PyErr (Option String) :=
  match entry with
  | .obj fields => do
    let status ← pyLower (jor (jGetF fields "status") (.str ""))
    if status ≠ "valid" then pure none
    else do
      let preferred := jGetF fields "s"
      let firstSources : List JVal := if preferred.isObj then [preferred] else []
      let previews ← pyIter (jor (jGetF fields "p") (.arr []))
      pure (firstSourceUrl (firstSources ++ previews.filter JVal.isObj))
  | _ => pure none

/-- The `ordered_ids` computed from `gallery_data.items` by
`_extract_gallery_photos` (lines 258-264), before the fallback to the
metadata keys. -/
def gallery_ordered_ids (post : JVal) : Except PyErr (List String) :=
  match post.objGet "gallery_data" with
  | .obj gfields => do
    let items ← pyIter (jor (jGetF gfields "items") (.arr []))
    pure (items.filterMap fun item =>
      match item with
      | .obj ifields =>
        match jGetF ifields "media_id" with
        | .str s => some s
        | _ => none
      | _ => none)
  | _ => pure []

/-- The per-id loop of `_extract_gallery_photos` (lines 268-282).  The
source's `seen` set always holds exactly the elements of `photos`, so the
dedup test is membership in the accumulated list. -/
def gallery_photo_loop (md : List (String × JVal)) : List String → List String → Except PyErr (List String)
  | [], photos => pure photos
  | mediaId :: rest, photos => do
    let entry := jGetF md mediaId
    let url? ← resolve_gallery_url entry
    match url? with
    | none => gallery_photo_loop md rest photos
    | some url =>
      if url = "" then gallery_photo_loop md rest photos
      else
        match normalize_url url with
        | none => gallery_photo_loop md rest photos
        | some normalized =>
          if normalized ∈ photos then gallery_photo_loop md rest photos
          else gallery_photo_loop md rest (photos ++ [normalized])

/-- Embedding of `RedditDownloader._extract_gallery_photos` (lines 253-282). -/
def extract_gallery_photos (post : JVal) : Except PyErr (List String) :=
  match post.objGet "media_metadata" with
  | .obj md => do
    let ids ← gallery_ordered_ids post
    let ordered := if ids.isEmpty then md.map Prod.fst else ids
    gallery_photo_loop md ordered []
  | _ => pure []

/-- The preview-image scan of `_extract_single_photo` (lines 313-322). -/
def first_image_url : List JVal → Option String
  | [] => none
  | image :: rest =>
    match image with
    | .obj imf =>
      (match jGetF imf "source" with
       | .obj sf =>
         (match jGetF sf "url" with
          | .str url =>
            if url ≠ "" then
              match normalize_url url with
              | some n => if n = "" then first_image_url rest else some n
              | none => first_image_url rest
            else first_image_url rest
          | _ => first_image_url rest)
       | _ => first_image_url rest)
    | _ => first_image_url rest

/-- The preview fallback of `_extract_single_photo` (lines 309-323). -/
def preview_photo (post : JVal) : Option String :=
  match post.objGet "preview" with
  | .obj pf =>
    match jGetF pf "images" with
    | .arr images => first_image_url images
    | _ => none
  | _ => none

/-- Embedding of `RedditDownloader._extract_single_photo` (lines 304-323).
A direct image-suffixed URL returns its normalization even when that is
`None`, exactly as the early `return` in the source does. -/
def extract_single_photo (post : JVal) : Option String :=
  match jor (post.objGet "url_overridden_by_dest") (post.objGet "url") with
  | .str url =>
    if is_image_url url then normalize_url url
    else preview_photo post
  | _ => preview_photo post

/-- Embedding of `RedditDownloader._extract_photos` (lines 245-251). -/
def extract_photos (post : JVal) : Except PyErr (List String) := do
  let photos ← extract_gallery_photos post
  if !photos.isEmpty then pure photos
  else
    match extract_single_photo post with
    | some s => if s = "" then pure [] else pure [s]
    | none => pure []

/-! ### Video extraction (reddit.py lines 325-368) -/

/-- The key scan over a `reddit_video` object (lines 354-359). -/
def reddit_video_url : List String → JVal → Option String
  | [], _ => none
  | key :: rest, rv =>
    match rv.objGet key with
    | .str url =>
      if url ≠ "" then
        match normalize_url url with
        | some n => if n = "" then reddit_video_url rest rv else some n
        | none => reddit_video_url rest rv
      else reddit_video_url rest rv
    | _ => reddit_video_url rest rv

/-- Python `==` between a JSON value and a string literal. -/
def jvalEqStr (v : JVal) (s : String) : Bool :=
  match v with
  | .str t => t == s
  | _ => false

/-- Embedding of `RedditDownloader._extract_reddit_video` (lines 348-368);
the parameter is the source's `section` argument. -/
def extract_reddit_video (sect : JVal) : Option String :=
  match sect with
  | .obj sf =>
    (match jGetF sf "reddit_video" with
     | .obj rvf =>
       reddit_video_url ["fallback_url", "scrubber_media_url", "hls_url", "dash_url"] (.obj rvf)
     | _ =>
       if jvalEqStr (jGetF sf "type") "video" then
         match jor (jGetF sf "fallback_url") (jGetF sf "url") with
         | .str url =>
           (match normalize_url url with
            | some n => if n = "" then none else some n
            | none => none)
         | _ => none
       else none)
  | _ => none

/-- Python `for section in video_sections: url = ...; if url: return url`. -/
def firstTruthy (f : JVal → Option String) : List JVal → Option String
  | [] => none
  | s :: rest =>
    match f s with
    | some u => if u = "" then firstTruthy f rest else some u
    | none => firstTruthy f rest

/-- The `for parent in post.get("crosspost_parent_list") or []` loop
(lines 340-344), parametrised by the recursive call into the parent post. -/
def crosspost_go (recurse : JVal → Except PyErr (Option String)) :
    List JVal → Except PyErr (Option String)
  | [] => pure none
  | p :: rest =>
    match p with
    | .obj pf => do
      let candidate ← recurse (.obj pf)
      match candidate with
      | some c => if c = "" then crosspost_go recurse rest else pure (some c)
      | none => crosspost_go recurse rest
    | _ => crosspost_go recurse rest

/-- One level of `RedditDownloader._extract_video` (lines 325-346); the
source's recursion into `crosspost_parent_list` entries is the `recurse`
parameter. -/
def extract_video_core (recurse : JVal → Except PyErr (Option String))
    (post : JVal) : Except PyErr (Option String) := do
  let previewVideo ← pyGet (jor (post.objGet "preview") (.obj [])) "reddit_video_preview"
  let sections : List JVal := [post.objGet "secure_media", post.objGet "media", previewVideo]
  match firstTruthy extract_reddit_video sections with
  | some url => pure (some url)
  | none =>
    let direct := jor (post.objGet "url_overridden_by_dest") (post.objGet "url")
    let directHit : Option (Option String) :=
      match direct with
      | .str url => if is_video_url url then some (normalize_url url) else none
      | _ => none
    match directHit with
    | some r => pure r
    | none => do
      let parents ← pyIter (jor (post.objGet "crosspost_parent_list") (.arr []))
      crosspost_go recurse parents

/-- `RedditDownloader._extract_video` with its crosspost recursion bounded
by a fuel argument that the caller sets to the structural size of the post,
which the crosspost nesting depth can never reach, so the fuel-exhausted
branch is unreachable. -/
def extract_video_fuel : Nat → JVal → Except PyErr (Option String)
  | 0, _ => pure none
  | fuel + 1, post => extract_video_core (fun p => extract_video_fuel fuel p) post

/-- Embedding of `RedditDownloader._extract_video` with the fuel bound
instantiated to the structural size of the post. -/
def extract_video (post : JVal) : Except PyErr (Option String) :=
  extract_video_fuel (jsize post) post

/-! ### Caption and asset construction (reddit.py lines 142-150, 370-377) -/

/-- Embedding of `RedditDownloader._build_caption` (lines 370-377). -/
def build_caption (post : JVal) : Except PyErr String := do
  let title0 ← pyStrip (jor (post.objGet "title") (.str ""))
  let title := if title0 = "" then "Reddit" else title0
  let author ← pyStrip (jor (post.objGet "author") (.str ""))
  if author ≠ "" then pure (title ++ "\n👤 u/" ++ author) else pure title

/-- Embedding of `RedditDownloader._build_asset` (lines 142-150). -/
def build_asset (post : JVal) : Except PyErr RedditMediaAsset := do
  let photos ← extract_photos post
  let video_url ← extract_video post
  if photos.isEmpty && !optStrTruthy video_url then
    .error (.downloadError noMediaMsg)
  else do
    let caption ← build_caption post
    pure ⟨caption, photos, video_url⟩

/-! ### Token manager and fetch protocol (reddit.py lines 163-243)

The asynchronous token cache is embedded as explicit state passing: the
single `now` stands for `time.time()`, the token-endpoint response body is
a `JVal` parameter, and the double-checked re-test inside the lock
collapses in this single-threaded embedding.  Observable actions are
recorded as an event trace. -/

structure RedditTokenState where
  access_token : Option String
  token_expiry : Int
deriving Repr, DecidableEq

/-- Observable actions of the fetch protocol, in order. -/
inductive RdEvent where
  /-- an authenticated GET for post data, with its `force_refresh` flag and
      the status code the server answered -/
  | dataRequest (force_refresh : Bool) (status : Nat)
  /-- `_invalidate_token` clearing the cache -/
  | invalidateToken
  /-- `_fetch_new_token` exchanging credentials at the token endpoint -/
  | fetchToken
deriving Repr, DecidableEq

def RdEvent.isData : RdEvent → Bool
  | .dataRequest _ _ => true
  | _ => false

def TOKEN_SAFETY_WINDOW : Int := 30

/-- The response-body parsing of `_fetch_new_token` (lines 225-238): a
missing or empty `access_token` raises; a present but non-convertible
`expires_in` falls back to 3600. -/
def fetch_new_token_parse (payload : JVal) : Except PyErr (String × Int) :=
  match payload with
  | .obj fields =>
    let token := jGetF fields "access_token"
    let expires_in := (JVal.lookupField fields "expires_in").getD (.num 3600)
    match token with
    | .str t =>
      if t = "" then .error (.downloadError tokenErrMsg)
      else .ok (t, (pyIntOpt expires_in).getD 3600)
    | _ => .error (.downloadError tokenErrMsg)
  | _ => .error .typeError

/-- The cached-token test of `_get_access_token`:
`self._access_token and time.time() < self._token_expiry`. -/
def cacheValid (st : RedditTokenState) (now : Int) : Bool :=
  optStrTruthy st.access_token && decide (now < st.token_expiry)

/-- Embedding of `_get_access_token` (lines 191-206): a valid cached token
is returned with no network call, otherwise a token exchange refreshes the
cache and the expiry becomes `now + max(expires_in - 30, 0)`. -/
def get_access_token (st : RedditTokenState) (now : Int) (force_refresh : Bool)
    (tokenPayload : JVal) : Except PyErr (String × RedditTokenState × List RdEvent) :=
  if !force_refresh && cacheValid st now then
    .ok (st.access_token.getD "", st, [])
  else
    match fetch_new_token_parse tokenPayload with
    | .error e => .error e
    | .ok (token, expires_in) =>
      .ok (token, ⟨some token, now + max (expires_in - TOKEN_SAFETY_WINDOW) 0⟩, [.fetchToken])

/-- Embedding of `_invalidate_token` (lines 240-243). -/
def invalidate_token (_st : RedditTokenState) : RedditTokenState :=
  ⟨none, 0⟩

/-- Embedding of `_authorized_get` (lines 176-189): acquire a token, then
issue the GET; the status the server answers is supplied by the caller. -/
def authorized_get (st : RedditTokenState) (now : Int) (force_refresh : Bool)
    (tokenPayload : JVal) (status : Nat) :
    Except PyErr (Nat × RedditTokenState × List RdEvent) :=
  match get_access_token st now force_refresh tokenPayload with
  | .error e => .error e
  | .ok (_token, st', evs) => .ok (status, st', evs ++ [.dataRequest force_refresh status])

/-- Embedding of `httpx.Response.raise_for_status`: 4xx/5xx raise. -/
def raise_for_status (status : Nat) : Except PyErr Nat :=
  if 400 ≤ status then .error (.httpStatusError status) else .ok status

/-- Embedding of `_request_with_token` (lines 163-174): `net i` is the
status code the server answers to the `i`-th data request of this call. -/
def request_with_token (net : Nat → Nat) (st : RedditTokenState) (now : Int)
    (tokenPayload : JVal) : Except PyErr Nat × List RdEvent × RedditTokenState :=
  match authorized_get st now false tokenPayload (net 0) with
  | .error e => (.error e, [], st)
  | .ok (s1, st1, ev1) =>
    if s1 = 401 then
      let stInv := invalidate_token st1
      match authorized_get stInv now true tokenPayload (net 1) with
      | .error e => (.error e, ev1 ++ [.invalidateToken], stInv)
      | .ok (s2, st2, ev2) =>
        (raise_for_status s2, ev1 ++ [.invalidateToken] ++ ev2, st2)
    else (raise_for_status s1, ev1, st1)

end RedditDownloader

/-! ## Twitter service (`src/bot/services/twitter.py`) -/

namespace TwitterDownloader

/-- Result type of `TwitterDownloader._parse_payload`. -/
structure TwitterMediaAsset where
  caption : String
  photos : List String
  video_url : Option String
deriving Repr, DecidableEq

def noMediaMsg : String := "Paylaşımda indirilebilir medya bulunamadı."

def noTweetMsg : String := "Tweet bilgisi çözümlenemedi."

/-! ### Caption extraction (twitter.py lines 107-113) -/

/-- The field scan of `_extract_caption`: `tweet.get(field) or
payload.get(field)` with Python's short-circuit, returning the first
stripped non-empty string. -/
def caption_scan (tweet payload : JVal) : List String → Except PyErr String
  | [] => pure ""
  | field :: rest => do
    let tvalue ← pyGet tweet field
    let candidate ← if tvalue.truthy then pure tvalue else pyGet payload field
    match candidate with
    | .str s => if strTrim s ≠ "" then pure (strTrim s) else caption_scan tweet payload rest
    | _ => caption_scan tweet payload rest

/-- Embedding of `TwitterDownloader._extract_caption`. -/
def extract_caption (tweet payload : JVal) : Except PyErr String :=
  caption_scan tweet payload ["full_text", "text", "description", "content"]

/-! ### Photo extraction (twitter.py lines 115-132) -/

/-- The `tweet["media"]` loop of `_extract_photos` (lines 117-123):
entries of type `photo` contribute their first truthy URL field. -/
def media_photo_loop : List JVal → List String → Except PyErr (List String)
  | [], photos => pure photos
  | entry :: rest, photos =>
    match entry with
    | .obj f => do
      let ty ← pyLower (jor (jGetF f "type") (.str ""))
      if ty = "photo" then
        let url := jor (jor (jGetF f "url") (jGetF f "media_url_https")) (jGetF f "media_url")
        if url.truthy then do
          let u ← asStr url
          let normalized := normalize_url u
          if normalized ∈ photos then media_photo_loop rest photos
          else media_photo_loop rest (photos ++ [normalized])
        else media_photo_loop rest photos
      else media_photo_loop rest photos
    | _ => media_photo_loop rest photos

/-- The `mediaURLs` fallback loop of `_extract_photos` (lines 126-130):
string entries not hosted on `video.twimg.com`, deduplicated. -/
def mediaurls_photo_loop : List JVal → List String → List String
  | [], photos => photos
  | url :: rest, photos =>
    match url with
    | .str u =>
      let normalized := normalize_url u
      if !strContains normalized "video.twimg.com" && !photos.contains normalized then
        mediaurls_photo_loop rest (photos ++ [normalized])
      else mediaurls_photo_loop rest photos
    | _ => mediaurls_photo_loop rest photos

/-- Embedding of `TwitterDownloader._extract_photos` (lines 115-132). -/
def extract_photos (tweet payload : JVal) : Except PyErr (List String) := do
  let media ← pyGet tweet "media"
  let entries ← pyIter (jor media (.arr []))
  let photos ← media_photo_loop entries []
  if photos.isEmpty then do
    let pm ← pyGet payload "mediaURLs"
    let source ← if pm.truthy then pure pm else pyGet tweet "mediaURLs"
    let urls ← pyIter (jor source (.arr []))
    pure (mediaurls_photo_loop urls photos)
  else pure photos

/-! ### Video extraction (twitter.py lines 134-202) -/

/-- Selection state of `_extract_video`: the best normalized URL so far and
its score, starting from `(None, -1)`. -/
abbrev VideoSel := Option String × Int

/-- Embedding of the inner `consider` closure (lines 139-149): skip falsy
URLs, normalize, discard non-video URLs, then keep the candidate exactly
when its score `int(bitrate or 0)` strictly exceeds the best so far. -/
def consider (st : VideoSel) (url bitrate : JVal) : Except PyErr VideoSel :=
  if !url.truthy then pure st
  else do
    let u ← asStr url
    let normalized := normalize_url u
    if !is_video_url normalized then pure st
    else do
      let score ← pyInt (jor bitrate (.num 0))
      if st.2 < score then pure (some normalized, score)
      else pure st

/-- The variants loop inside the `sections` scan (lines 159-161), which
scores by the `bitrate` key only. -/
def variants_loop : List JVal → VideoSel → Except PyErr VideoSel
  | [], st => pure st
  | v :: rest, st =>
    match v with
    | .obj g => do
      let st ← consider st (jGetF g "url") (jGetF g "bitrate")
      variants_loop rest st
    | _ => variants_loop rest st

/-- The `sections` loop (lines 157-161) over the singular `video` object
and the `videos` list entries. -/
def sections_loop : List JVal → VideoSel → Except PyErr VideoSel
  | [], st => pure st
  | entry :: rest, st => do
    let st ← consider st (entry.objGet "url") (entry.objGet "bitrate")
    let variants ← pyIter (jor (entry.objGet "variants") (.arr []))
    let st ← variants_loop variants st
    sections_loop rest st

/-- The variants loop inside the media-collection scan (lines 183-185),
which scores by `bitrate` falling back to `bit_rate`. -/
def media_variants_loop : List JVal → VideoSel → Except PyErr VideoSel
  | [], st => pure st
  | v :: rest, st =>
    match v with
    | .obj g => do
      let st ← consider st (jGetF g "url") (jor (jGetF g "bitrate") (jGetF g "bit_rate"))
      media_variants_loop rest st
    | _ => media_variants_loop rest st

/-- One media entry of a collection (lines 178-185): only `video` and
`animated_gif` entries are scanned. -/
def media_entry_consider (st : VideoSel) (f : List (String × JVal)) : Except PyErr VideoSel := do
  let ty ← pyLower (jor (jGetF f "type") (.str ""))
  if ty ≠ "video" && ty ≠ "animated_gif" then pure st
  else do
    let st ← consider st (jor (jGetF f "url") (jGetF f "video_url"))
      (jor (jGetF f "bitrate") (jGetF f "bit_rate"))
    let variants ← pyIter (jor (jGetF f "variants") (.arr []))
    media_variants_loop variants st

def media_collection_loop : List JVal → VideoSel → Except PyErr VideoSel
  | [], st => pure st
  | media :: rest, st =>
    match media with
    | .obj f => do
      let st ← media_entry_consider st f
      media_collection_loop rest st
    | _ => media_collection_loop rest st

def collections_loop : List (List JVal) → VideoSel → Except PyErr VideoSel
  | [], st => pure st
  | coll :: rest, st => do
    let st ← media_collection_loop coll st
    collections_loop rest st

/-- Embedding of `collect_media` (lines 165-167): lists contribute their
dict entries, anything else contributes nothing. -/
def collect_media (value : JVal) : List (List JVal) :=
  match value with
  | .arr l => [l.filter JVal.isObj]
  | _ => []

/-- The list case of `consider_url_sequence` (lines 190-193). -/
def consider_url_list : List JVal → VideoSel → Except PyErr VideoSel
  | [], st => pure st
  | u :: rest, st =>
    match u with
    | .str _ => do
      let st ← consider st u .null
      consider_url_list rest st
    | _ => consider_url_list rest st

/-- Embedding of `consider_url_sequence` (lines 187-193). -/
def consider_url_sequence (st : VideoSel) (urls : JVal) : Except PyErr VideoSel :=
  match urls with
  | .str _ => consider st urls .null
  | .arr l => consider_url_list l st
  | _ => pure st

/-- The loop over the three `combined...` keys (lines 198-200), each read
from the tweet and then from the payload. -/
def combined_keys_loop (tweet payload : JVal) : List String → VideoSel → Except PyErr VideoSel
  | [], st => pure st
  | key :: rest, st => do
    let tv ← pyGet tweet key
    let st ← consider_url_sequence st tv
    let pv ← pyGet payload key
    let st ← consider_url_sequence st pv
    combined_keys_loop tweet payload rest st

/-- Embedding of `TwitterDownloader._extract_video` (lines 134-202). -/
def extract_video (tweet payload0 : JVal) : Except PyErr (Option String) := do
  let payload := jor payload0 (.obj [])
  let videoSection ← pyGet tweet "video"
  let firstSections : List JVal := if videoSection.isObj then [videoSection] else []
  let videosVal ← pyGet tweet "videos"
  let videosIter ← pyIter (jor videosVal (.arr []))
  let st ← sections_loop (firstSections ++ videosIter.filter JVal.isObj) ((none : Option String), (-1 : Int))
  let mediaV ← pyGet tweet "media"
  let mediaExtV ← pyGet tweet "media_extended"
  let pMediaExtV ← pyGet payload "media_extended"
  let eeV ← pyGet tweet "extended_entities"
  let eeColls :=
    match eeV with
    | .obj ef => collect_media (jGetF ef "media")
    | _ => []
  let st ← collections_loop
    (collect_media mediaV ++ collect_media mediaExtV ++ collect_media pMediaExtV ++ eeColls) st
  let murlT ← pyGet tweet "mediaURLs"
  let st ← consider_url_sequence st murlT
  let murlP ← pyGet payload "mediaURLs"
  let st ← consider_url_sequence st murlP
  let st ← combined_keys_loop tweet payload ["combinedMediaUrl", "combinedMediaURL", "combined_media_url"] st
  pure st.1

/-! ### Payload parsing (twitter.py lines 85-105) -/

/-- Embedding of `TwitterDownloader._parse_payload`. -/
def parse_payload (payload : JVal) : Except PyErr TwitterMediaAsset := do
  let tweet0 : JVal :=
    match payload with
    | .obj _ => payload.objGet "tweet"
    | _ => .null
  let tweet ←
    if tweet0.truthy then pure tweet0
    else
      match payload with
      | .obj _ => pure payload
      | _ => .error (.downloadError noTweetMsg)
  let caption ← extract_caption tweet payload
  let photos ← extract_photos tweet payload
  let video_url ← extract_video tweet payload
  if photos.isEmpty && !optStrTruthy video_url then
    .error (.downloadError noMediaMsg)
  else
    pure ⟨caption, photos, video_url⟩

end TwitterDownloader

/-! ## Telegram album delivery (`src/bot/utils/telegram_media.py`)

`send_photo_album` downloads each photo and sends the batches; the network
and Telegram side effects are abstracted away, leaving the observable plan:
which photo is sent in which batch with which caption.  A one-photo batch
goes through `answer_photo` with `caption_pending`, a larger batch through a
media group with `caption_pending` on index 0 only; after the first batch
`caption_pending` becomes `None`. -/

def sendPhotoErrMsg : String := "Gönderilebilecek fotoğraf bulunamadı."

/-- The per-batch loop of `send_photo_album` (lines 41-68), producing for
each batch the list of `(photo, caption)` pairs actually sent. -/
def album_plan (caption : Option String) : List (List String) → List (List (String × Option String))
  | [] => []
  | chunk :: rest =>
    (if chunk.length = 1 then [(chunk.headD "", caption)]
     else chunk.enum.map fun ip => (ip.2, if ip.1 = 0 then caption else none))
    :: album_plan none rest

/-- Embedding of `send_photo_album` (telegram_media.py lines 17-68): an
empty photo list raises, otherwise the photos are chunked and sent with the
caption only on the first item of the first batch. -/
def send_photo_album (photos : List String) (caption : Option String) (chunk_size : Nat) :
    Except String (List (List (String × Option String))) := do
  if photos.isEmpty then .error sendPhotoErrMsg
  else do
    let chunks ← chunked photos chunk_size
    pure (album_plan caption chunks)

/-! ## Lemmas about the album batcher -/

theorem chunkGo_nil {α : Type _} (size : Nat) (bucket : List α) :
    chunkGo size bucket [] = if bucket.isEmpty then [] else [bucket] := rfl

theorem chunkGo_cons {α : Type _} (size : Nat) (bucket : List α) (x : α) (xs : List α) :
    chunkGo size bucket (x :: xs) =
      if (bucket ++ [x]).length = size then (bucket ++ [x]) :: chunkGo size [] xs
      else chunkGo size (bucket ++ [x]) xs := rfl

theorem chunkGo_flatten {α : Type _} (size : Nat) :
    ∀ (xs bucket : List α), bucket.length < size →
      (chunkGo size bucket xs).flatten = bucket ++ xs := by
  intro xs
  induction xs with
  | nil =>
    intro bucket _
    rw [chunkGo_nil]
    by_cases hb : bucket.isEmpty
    · simp [hb, List.isEmpty_iff.mp hb]
    · simp [hb]
  | cons x xs ih =>
    intro bucket hlt
    have hlen : (bucket ++ [x]).length = bucket.length + 1 := by simp
    rw [chunkGo_cons]
    by_cases hfull : (bucket ++ [x]).length = size
    · rw [if_pos hfull]
      have h0 : 0 < size := by omega
      simp [ih [] h0]
    · rw [if_neg hfull]
      have hlt2 : (bucket ++ [x]).length < size := by omega
      simp [ih (bucket ++ [x]) hlt2]

theorem chunkGo_length_ten {α : Type _} :
    ∀ (xs bucket : List α), bucket.length < 10 →
      (chunkGo 10 bucket xs).length = (bucket.length + xs.length + 9) / 10 := by
  intro xs
  induction xs with
  | nil =>
    intro bucket hlt
    rw [chunkGo_nil]
    by_cases hb : bucket.isEmpty
    · simp [hb, List.isEmpty_iff.mp hb]
    · have hne : bucket ≠ [] := by simpa [List.isEmpty_iff] using hb
      have hpos : 0 < bucket.length := List.length_pos.mpr hne
      rw [if_neg hb]
      simp only [List.length_cons, List.length_nil]
      omega
  | cons x xs ih =>
    intro bucket hlt
    have hlen : (bucket ++ [x]).length = bucket.length + 1 := by simp
    rw [chunkGo_cons]
    by_cases hfull : (bucket ++ [x]).length = 10
    · rw [if_pos hfull]
      have hrec := ih [] (by norm_num)
      simp only [List.length_cons, hrec, List.length_nil]
      omega
    · rw [if_neg hfull]
      have hlt2 : (bucket ++ [x]).length < 10 := by omega
      have hrec := ih (bucket ++ [x]) hlt2
      simp only [hrec, hlen, List.length_cons]
      omega

theorem chunkGo_sizes {α : Type _} (size : Nat) :
    ∀ (xs bucket : List α), bucket.length < size →
      ∀ c ∈ chunkGo size bucket xs, c.length ≤ size := by
  intro xs
  induction xs with
  | nil =>
    intro bucket hlt c hc
    rw [chunkGo_nil] at hc
    by_cases hb : bucket.isEmpty
    · simp [hb] at hc
    · rw [if_neg hb] at hc
      simp at hc
      subst hc; omega
  | cons x xs ih =>
    intro bucket hlt c hc
    have hlen : (bucket ++ [x]).length = bucket.length + 1 := by simp
    rw [chunkGo_cons] at hc
    by_cases hfull : (bucket ++ [x]).length = size
    · rw [if_pos hfull] at hc
      rcases List.mem_cons.mp hc with rfl | hc2
      · omega
      · have hsz : 0 < size := by omega
        exact ih [] (by simpa using hsz) c hc2
    · rw [if_neg hfull] at hc
      have hlt2 : (bucket ++ [x]).length < size := by omega
      exact ih (bucket ++ [x]) hlt2 c hc

theorem chunkGo_chunks_ne_nil {α : Type _} (size : Nat) :
    ∀ (xs bucket : List α), ∀ c ∈ chunkGo size bucket xs, c ≠ [] := by
  intro xs
  induction xs with
  | nil =>
    intro bucket c hc
    rw [chunkGo_nil] at hc
    by_cases hb : bucket.isEmpty
    · simp [hb] at hc
    · rw [if_neg hb] at hc
      simp at hc
      subst hc
      simpa [List.isEmpty_iff] using hb
  | cons x xs ih =>
    intro bucket c hc
    rw [chunkGo_cons] at hc
    by_cases hfull : (bucket ++ [x]).length = size
    · rw [if_pos hfull] at hc
      rcases List.mem_cons.mp hc with rfl | hc2
      · simp
      · exact ih [] c hc2
    · rw [if_neg hfull] at hc
      exact ih (bucket ++ [x]) c hc

/-- C2: for every sequence of N items with N ≥ 1, `chunked` with batch size
10 yields exactly ceil(N/10) = (N+9)/10 batches, each of size at most 10,
and the concatenation of the batches in yielded order is the input
sequence. -/
theorem c2_chunked_ten (α : Type) (l : List α) (hN : 1 ≤ l.length) :
    ∃ cs, chunked l 10 = .ok cs ∧
      cs.length = (l.length + 9) / 10 ∧
      (∀ c ∈ cs, c.length ≤ 10) ∧
      cs.flatten = l := by
  refine ⟨chunkGo 10 [] l, rfl, ?_, ?_, ?_⟩
  · simpa using chunkGo_length_ten l [] (by norm_num)
  · exact chunkGo_sizes 10 l [] (by norm_num)
  · simpa using chunkGo_flatten 10 l [] (by norm_num)

/-- Witness for `c2_chunked_ten` at the 11-element sequence `range 11`:
two batches, sizes at most 10, concatenating back to the input. -/
theorem c2_chunked_ten_witness :
    ∃ cs, chunked (List.range 11) 10 = .ok cs ∧
      cs.length = ((List.range 11).length + 9) / 10 ∧
      (∀ c ∈ cs, c.length ≤ 10) ∧
      cs.flatten = List.range 11 :=
  c2_chunked_ten Nat (List.range 11) (by decide)

/-! ## Lemmas about the album caption placement -/

theorem album_plan_none :
    ∀ chunks, ∀ b ∈ album_plan (none : Option String) chunks, ∀ pc ∈ b, pc.2 = none := by
  intro chunks
  induction chunks with
  | nil => simp [album_plan]
  | cons c rest ih =>
    intro b hb pc hpc
    simp only [album_plan, List.mem_cons] at hb
    rcases hb with rfl | hb
    · by_cases hl : c.length = 1
      · simp only [hl, if_true, List.mem_singleton] at hpc
        subst hpc; rfl
      · simp only [hl, if_false, List.mem_map] at hpc
        obtain ⟨ip, _, rfl⟩ := hpc
        simp
    · exact ih b hb pc hpc

theorem album_plan_photos :
    ∀ (cap : Option String) (chunks : List (List String)),
      (album_plan cap chunks).map (fun b => b.map Prod.fst) = chunks := by
  intro cap chunks
  induction chunks generalizing cap with
  | nil => simp [album_plan]
  | cons c rest ih =>
    simp only [album_plan, List.map_cons, ih]
    by_cases hl : c.length = 1
    · obtain ⟨x, rfl⟩ := List.length_eq_one.mp hl
      simp
    · simp only [hl, if_false, List.map_map]
      have h2 : (Prod.fst ∘ fun ip : Nat × String => (ip.2, if ip.1 = 0 then cap else none)) = Prod.snd := by
        funext ip; rfl
      rw [h2, List.enum_map_snd]

theorem chunkGo_singleton {α : Type _} (size : Nat) (p : α) :
    chunkGo size [] [p] = [[p]] := by
  rw [chunkGo_cons]
  by_cases h : (([] : List α) ++ [p]).length = size
  · rw [if_pos h]
    simp [chunkGo_nil]
  · rw [if_neg h]
    simp [chunkGo_nil]

/-- C9: for every non-empty photo list and caption, `send_photo_album`
attaches the caption only to the first photo of the first batch — the plan
starts with a batch whose head pair carries the caption, every other pair
of the first batch and of every later batch carries no caption, the photos
sent are exactly the chunked input, and a single-photo input still carries
the caption on its sole photo. -/
theorem c9_send_photo_album_caption (photos : List String) (caption : Option String)
    (chunk_size : Nat) (hne : photos ≠ []) (hsz : 0 < chunk_size) :
    ∃ plan, send_photo_album photos caption chunk_size = .ok plan ∧
      (∃ b0 rest, plan = b0 :: rest ∧
        (∃ p0 ptail, b0 = p0 :: ptail ∧ p0.2 = caption ∧ ∀ pc ∈ ptail, pc.2 = none) ∧
        (∀ b ∈ rest, ∀ pc ∈ b, pc.2 = none)) ∧
      plan.map (fun b => b.map Prod.fst) = chunkGo chunk_size [] photos ∧
      (photos.length = 1 → plan = [[(photos.headD "", caption)]]) := by
  have hszne : chunk_size ≠ 0 := hsz.ne'
  have hplan : send_photo_album photos caption chunk_size =
      .ok (album_plan caption (chunkGo chunk_size [] photos)) := by
    simp [send_photo_album, chunked, hne, hszne]
  refine ⟨_, hplan, ?_, album_plan_photos caption _, ?_⟩
  · have hflat := chunkGo_flatten chunk_size photos [] (by simpa using hsz)
    have hchne : chunkGo chunk_size [] photos ≠ [] := by
      intro h
      rw [h] at hflat
      simp at hflat
      exact hne hflat
    obtain ⟨c0, cs, hc0⟩ := List.exists_cons_of_ne_nil hchne
    have hc0ne : c0 ≠ [] :=
      chunkGo_chunks_ne_nil chunk_size photos [] c0 (by rw [hc0]; simp)
    obtain ⟨q, qs, hq⟩ := List.exists_cons_of_ne_nil hc0ne
    subst hq
    refine ⟨_, _, by rw [hc0]; rfl, ?_, ?_⟩
    · by_cases hl : (q :: qs).length = 1
      · refine ⟨((q :: qs).headD "", caption), [], ?_, rfl, by simp⟩
        simp [hl]
      · refine ⟨(q, caption),
          (List.enumFrom 1 qs).map (fun ip => (ip.2, if ip.1 = 0 then caption else none)),
          ?_, rfl, ?_⟩
        · simp [hl, List.enum_cons]
        · intro pc hpc
          obtain ⟨ip, hip, rfl⟩ := List.mem_map.mp hpc
          obtain ⟨i, x⟩ := ip
          have h1 := (List.mem_enumFrom hip).1
          have : i ≠ 0 := by omega
          simp [this]
    · intro b hb pc hpc
      exact album_plan_none cs b hb pc hpc
  · intro hlen1
    obtain ⟨p, rfl⟩ := List.length_eq_one.mp hlen1
    rw [chunkGo_singleton]
    simp [album_plan]

/-- Witness for `c9_send_photo_album_caption` at a concrete three-photo
album with chunk size 10 and caption `cap`. -/
theorem c9_send_photo_album_caption_witness :
    ∃ plan, send_photo_album ["a", "b", "c"] (some "cap") 10 = .ok plan ∧
      (∃ b0 rest, plan = b0 :: rest ∧
        (∃ p0 ptail, b0 = p0 :: ptail ∧ p0.2 = some "cap" ∧ ∀ pc ∈ ptail, pc.2 = none) ∧
        (∀ b ∈ rest, ∀ pc ∈ b, pc.2 = none)) ∧
      plan.map (fun b => b.map Prod.fst) = chunkGo 10 [] ["a", "b", "c"] ∧
      (["a", "b", "c"].length = 1 → plan = [[("a", some "cap")]]) :=
  c9_send_photo_album_caption ["a", "b", "c"] (some "cap") 10 (by decide) (by decide)

/-! ## Lemmas about the URL normalizers -/

theorem replaceAmpChars_slash (t : List Char) :
    replaceAmpChars ('/' :: t) = '/' :: replaceAmpChars t := by
  simp [replaceAmpChars]

theorem startsWith_https_append (c : String) (h : strStartsWith c "//" = true) :
    strStartsWith ("https:" ++ c) "https://" = true := by
  unfold strStartsWith at h ⊢
  have hdl : ("https:" ++ c).toList = 'h' :: 't' :: 't' :: 'p' :: 's' :: ':' :: c.toList := by
    simp [String.toList, String.data_append]
  have h8 : "https://".toList = ['h', 't', 't', 'p', 's', ':', '/', '/'] := by decide
  have h2 : "//".toList = ['/', '/'] := by decide
  rw [hdl, h8]
  rw [h2] at h
  simpa [List.isPrefixOf] using h

theorem slashslash_decomp (c : String) (h : strStartsWith c "//" = true) :
    ∃ rest, c.toList = '/' :: '/' :: rest := by
  have h2 : "//".toList = ['/', '/'] := by decide
  unfold strStartsWith at h
  rw [h2] at h
  obtain ⟨t, ht⟩ := List.isPrefixOf_iff_prefix.mp h
  exact ⟨t, ht.symm⟩

theorem replaceAmp_keeps_slashslash (c : String) (h : strStartsWith c "//" = true) :
    strStartsWith (replaceAmp c) "//" = true := by
  obtain ⟨rest, hr⟩ := slashslash_decomp c h
  have hlist : (replaceAmp c).toList = '/' :: '/' :: replaceAmpChars rest := by
    show (List.asString (replaceAmpChars c.toList)).toList = _
    rw [hr, replaceAmpChars_slash, replaceAmpChars_slash]
    rfl
  unfold strStartsWith
  rw [hlist]
  have h2 : "//".toList = ['/', '/'] := by decide
  rw [h2]
  simp [List.isPrefixOf]

theorem protocolFix_of_slashslash (c : String) (h : strStartsWith c "//" = true) :
    protocolFix c = "https:" ++ c := by
  simp [protocolFix, h]

theorem reddit_normalize_url_protocol_relative (s : String)
    (h : strStartsWith (strTrim s) "//" = true) :
    RedditDownloader.normalize_url s = some ("https:" ++ replaceAmp (strTrim s)) := by
  have hs : s ≠ "" := by
    intro h0; rw [h0] at h; revert h; decide
  have ht : strTrim s ≠ "" := by
    intro h1; rw [h1] at h; revert h; decide
  have hamp := replaceAmp_keeps_slashslash (strTrim s) h
  have hfix := protocolFix_of_slashslash (replaceAmp (strTrim s)) hamp
  have hyes := startsWith_https_append (replaceAmp (strTrim s)) hamp
  simp only [RedditDownloader.normalize_url]
  rw [if_neg hs, if_neg ht, hfix]
  simp [hyes]

theorem tiktok_normalize_url_protocol_relative (s : String)
    (h : strStartsWith (strTrim s) "//" = true) :
    TikTokDownloader.normalize_photo_url s = some ("https:" ++ strTrim s) := by
  have ht : strTrim s ≠ "" := by
    intro h1; rw [h1] at h; revert h; decide
  have hfix := protocolFix_of_slashslash (strTrim s) h
  have hyes := startsWith_https_append (strTrim s) h
  simp only [TikTokDownloader.normalize_photo_url]
  rw [if_neg ht, hfix]
  simp [hyes]

theorem reddit_normalize_url_rejects (s : String)
    (h : ¬ (strStartsWith (protocolFix (replaceAmp (strTrim s))) "http://" = true ∨
            strStartsWith (protocolFix (replaceAmp (strTrim s))) "https://" = true)) :
    RedditDownloader.normalize_url s = none := by
  push_neg at h
  simp only [RedditDownloader.normalize_url]
  by_cases h0 : s = ""
  · simp [h0]
  · rw [if_neg h0]
    by_cases h1 : strTrim s = ""
    · simp [h1]
    · rw [if_neg h1]
      simp [Bool.not_eq_true] at h
      simp [h.1, h.2]

theorem tiktok_normalize_url_rejects (s : String)
    (h : ¬ (strStartsWith (protocolFix (strTrim s)) "http://" = true ∨
            strStartsWith (protocolFix (strTrim s)) "https://" = true)) :
    TikTokDownloader.normalize_photo_url s = none := by
  push_neg at h
  simp only [TikTokDownloader.normalize_photo_url]
  by_cases h1 : strTrim s = ""
  · simp [h1]
  · rw [if_neg h1]
    simp [Bool.not_eq_true] at h
    simp [h.1, h.2]

/-- C7 (amended): the Reddit and TikTok normalizers rewrite a
protocol-relative candidate by prefixing `https:` and return absent for
any input whose fixed candidate does not start with `http://` or
`https://` (including empty and whitespace-only strings, whose candidate
is empty); the Twitter normalizer performs only the protocol-relative
rewrite and returns every other input unchanged — it never rejects, which
is where the original claim fails. -/
theorem c7_normalizers (s : String) :
    (strStartsWith (strTrim s) "//" = true →
      RedditDownloader.normalize_url s = some ("https:" ++ replaceAmp (strTrim s)) ∧
      TikTokDownloader.normalize_photo_url s = some ("https:" ++ strTrim s)) ∧
    (strStartsWith s "//" = true → TwitterDownloader.normalize_url s = "https:" ++ s) ∧
    (¬ (strStartsWith (protocolFix (replaceAmp (strTrim s))) "http://" = true ∨
        strStartsWith (protocolFix (replaceAmp (strTrim s))) "https://" = true) →
      RedditDownloader.normalize_url s = none) ∧
    (¬ (strStartsWith (protocolFix (strTrim s)) "http://" = true ∨
        strStartsWith (protocolFix (strTrim s)) "https://" = true) →
      TikTokDownloader.normalize_photo_url s = none) ∧
    (strStartsWith s "//" = false → TwitterDownloader.normalize_url s = s) := by
  refine ⟨?_, ?_, ?_, ?_, ?_⟩
  · intro h
    exact ⟨reddit_normalize_url_protocol_relative s h, tiktok_normalize_url_protocol_relative s h⟩
  · intro h
    simp [TwitterDownloader.normalize_url, protocolFix, h]
  · exact reddit_normalize_url_rejects s
  · exact tiktok_normalize_url_rejects s
  · intro h
    simp [TwitterDownloader.normalize_url, protocolFix, h]

/-- C7 counterexample: the claim states that all three per-platform
normalizers, the Twitter one included, return absent for an input that
does not start with `http://`/`https://` after the protocol-relative fix;
the Twitter normalizer instead returns the non-http string unchanged. -/
theorem c7_counterexample :
    TwitterDownloader.normalize_url "not-a-url" = "not-a-url" ∧
    strStartsWith "not-a-url" "http://" = false ∧
    strStartsWith "not-a-url" "https://" = false := by
  decide

/-- Witness for `c7_normalizers` at concrete inputs: a protocol-relative
URL on all three platforms, and rejected inputs on Reddit and TikTok. -/
theorem c7_normalizers_witness :
    RedditDownloader.normalize_url "//a/b" = some ("https:" ++ replaceAmp (strTrim "//a/b")) ∧
    TikTokDownloader.normalize_photo_url "//a/b" = some ("https:" ++ strTrim "//a/b") ∧
    TwitterDownloader.normalize_url "//a/b" = "https:" ++ "//a/b" ∧
    RedditDownloader.normalize_url "ftp://x" = none ∧
    TikTokDownloader.normalize_photo_url " " = none ∧
    TwitterDownloader.normalize_url "plain" = "plain" := by
  refine ⟨((c7_normalizers "//a/b").1 (by decide)).1,
    ((c7_normalizers "//a/b").1 (by decide)).2,
    (c7_normalizers "//a/b").2.1 (by decide),
    (c7_normalizers "ftp://x").2.2.1 (by decide),
    (c7_normalizers " ").2.2.2.1 (by decide),
    (c7_normalizers "plain").2.2.2.2 (by decide)⟩

/-! ## Lemmas about the single-pass ampersand unescaping -/

theorem replaceAmpChars_prefix_pullback :
    ∀ (u p : List Char), '&' ∉ p → p <+: replaceAmpChars u → p <+: u := by
  intro u
  induction u using replaceAmpChars.induct with
  | case1 rest ih =>
    intro p hamp hp
    rw [replaceAmpChars.eq_1] at hp
    cases p with
    | nil => exact List.nil_prefix
    | cons q p' =>
      rw [List.cons_prefix_cons] at hp
      rcases hp with ⟨rfl, -⟩
      exact absurd (List.mem_cons_self _ _) hamp
  | case2 c rest hne ih =>
    intro p hamp hp
    rw [replaceAmpChars.eq_2 c rest hne] at hp
    cases p with
    | nil => exact List.nil_prefix
    | cons q p' =>
      rw [List.cons_prefix_cons] at hp ⊢
      refine ⟨hp.1, ih p' (fun hm => hamp (List.mem_cons_of_mem _ hm)) hp.2⟩
  | case3 =>
    intro p hamp hp
    rw [replaceAmpChars.eq_3] at hp
    exact hp

theorem replaceAmpChars_no_amp :
    ∀ u : List Char, ¬ (['&', 'a', 'm', 'p', ';', 'a', 'm', 'p', ';'] <:+: u) →
      ¬ (['&', 'a', 'm', 'p', ';'] <:+: replaceAmpChars u) := by
  intro u
  induction u using replaceAmpChars.induct with
  | case1 rest ih =>
    intro h hcon
    rw [replaceAmpChars.eq_1] at hcon
    have hsuf : rest <:+ ('&' :: 'a' :: 'm' :: 'p' :: ';' :: rest) := ⟨['&', 'a', 'm', 'p', ';'], rfl⟩
    have hi : ¬ (['&', 'a', 'm', 'p', ';', 'a', 'm', 'p', ';'] <:+: rest) := fun hx =>
      h (hx.trans hsuf.isInfix)
    have hnp : ¬ (['a', 'm', 'p', ';'] <+: rest) := by
      intro hp
      obtain ⟨t, ht⟩ := hp
      apply h
      refine List.IsPrefix.isInfix ⟨t, ?_⟩
      simp [← ht]
    rcases List.infix_cons_iff.mp hcon with hpre | hinf
    · rw [List.cons_prefix_cons] at hpre
      exact hnp (replaceAmpChars_prefix_pullback rest ['a', 'm', 'p', ';'] (by decide) hpre.2)
    · exact ih hi hinf
  | case2 c rest hne ih =>
    intro h hcon
    rw [replaceAmpChars.eq_2 c rest hne] at hcon
    have hsuf : rest <:+ (c :: rest) := ⟨[c], rfl⟩
    have hi : ¬ (['&', 'a', 'm', 'p', ';', 'a', 'm', 'p', ';'] <:+: rest) := fun hx =>
      h (hx.trans hsuf.isInfix)
    rcases List.infix_cons_iff.mp hcon with hpre | hinf
    · rw [List.cons_prefix_cons] at hpre
      obtain ⟨t, ht⟩ :=
        replaceAmpChars_prefix_pullback rest ['a', 'm', 'p', ';'] (by decide) hpre.2
      exact hne t hpre.1.symm (by simp [← ht])
    · exact ih hi hinf
  | case3 =>
    intro h hcon
    rw [replaceAmpChars.eq_3] at hcon
    simp at hcon

theorem infix_append_right_of_head_notin {pat : List Char} {hd : Char}
    (hhd : pat.head? = some hd) :
    ∀ (pre l : List Char), hd ∉ pre → pat <:+: pre ++ l → pat <:+: l := by
  intro pre
  induction pre with
  | nil =>
    intro l _ h
    simpa using h
  | cons a pre' ih =>
    intro l hmem h
    rcases List.infix_cons_iff.mp (by simpa using h) with hpre | hinf
    · cases pat with
      | nil => simp at hhd
      | cons p0 ps =>
        rw [List.cons_prefix_cons] at hpre
        have hh : p0 = hd := by
          rw [List.head?_cons] at hhd
          exact Option.some.inj hhd
        have : hd = a := hh ▸ hpre.1
        exact absurd (this ▸ List.mem_cons_self a pre') hmem
    · exact ih l (fun hm => hmem (List.mem_cons_of_mem _ hm)) hinf

/-- C10 (amended): the Reddit URL normalizer applies a single left-to-right
pass replacing `&amp;` with `&` before its scheme checks; consequently a
returned URL never contains `&amp;` provided the trimmed input does not
contain the overlapped escape `&amp;amp;` (which the single pass rewrites
to `&amp;`, recreating the substring — the unconditional claim fails
there). -/
theorem c10_reddit_normalize_unescapes (s r : String)
    (hres : RedditDownloader.normalize_url s = some r)
    (hin : ¬ ("&amp;amp;".toList <:+: (strTrim s).toList)) :
    ¬ ("&amp;".toList <:+: r.toList) := by
  have hampL : "&amp;".toList = ['&', 'a', 'm', 'p', ';'] := by decide
  have hampampL : "&amp;amp;".toList = ['&', 'a', 'm', 'p', ';', 'a', 'm', 'p', ';'] := by decide
  rw [hampampL] at hin
  rw [hampL]
  simp only [RedditDownloader.normalize_url] at hres
  by_cases h0 : s = ""
  · rw [if_pos h0] at hres
    simp at hres
  · rw [if_neg h0] at hres
    by_cases h1 : strTrim s = ""
    · rw [if_pos h1] at hres
      simp at hres
    · rw [if_neg h1] at hres
      have hXnoamp :
          ¬ (['&', 'a', 'm', 'p', ';'] <:+: (replaceAmp (strTrim s)).toList) := by
        have heq : (replaceAmp (strTrim s)).toList = replaceAmpChars (strTrim s).toList := rfl
        rw [heq]
        exact replaceAmpChars_no_amp ((strTrim s).toList) hin
      by_cases h2 : (strStartsWith (protocolFix (replaceAmp (strTrim s))) "http://" ||
          strStartsWith (protocolFix (replaceAmp (strTrim s))) "https://") = true
      · rw [if_pos h2] at hres
        have hr : r = protocolFix (replaceAmp (strTrim s)) := (Option.some.inj hres).symm
        rw [hr]
        unfold protocolFix
        by_cases h3 : strStartsWith (replaceAmp (strTrim s)) "//" = true
        · rw [if_pos h3]
          intro hcon
          have hsplit : ("https:" ++ replaceAmp (strTrim s)).toList =
              "https:".toList ++ (replaceAmp (strTrim s)).toList := by
            simp [String.toList, String.data_append]
          rw [hsplit] at hcon
          have hnotin : '&' ∉ "https:".toList := by decide
          have hhd : (['&', 'a', 'm', 'p', ';'] : List Char).head? = some '&' := rfl
          exact hXnoamp
            (infix_append_right_of_head_notin hhd "https:".toList _ hnotin hcon)
        · rw [if_neg h3]
          exact hXnoamp
      · rw [if_neg h2] at hres
        simp at hres

/-- C10 counterexample: the claim asserts a URL returned by the Reddit
normalizer never contains `&amp;`; on the input
`https://x.com/?a&amp;amp;b` the single replacement pass rewrites
`&amp;amp;` to `&amp;`, so the returned URL still contains `&amp;`. -/
theorem c10_counterexample :
    RedditDownloader.normalize_url "https://x.com/?a&amp;amp;b" =
      some "https://x.com/?a&amp;b" ∧
    ("&amp;".toList <:+: "https://x.com/?a&amp;b".toList) := by
  constructor
  · decide
  · decide

/-- Witness for `c10_reddit_normalize_unescapes` at a concrete URL with a
single `&amp;` escape: the returned URL contains no `&amp;`. -/
theorem c10_reddit_normalize_unescapes_witness :
    RedditDownloader.normalize_url "https://x.com/?a&amp;b" = some "https://x.com/?a&b" ∧
    ¬ ("&amp;".toList <:+: "https://x.com/?a&b".toList) :=
  ⟨by decide,
   c10_reddit_normalize_unescapes "https://x.com/?a&amp;b" "https://x.com/?a&b"
     (by decide) (by decide)⟩

/-! ## Theorems about the token manager -/

/-- C6: whenever the cached-token fast path is not taken and the token
exchange parses successfully, the new cached expiry is the acquisition
time plus `max(expires_in - 30, 0)`; an `expires_in` field that is present
but not convertible to an integer is replaced by 3600 instead of failing;
and a missing, empty or non-string `access_token` in the response body
raises the token-acquisition error. -/
theorem c6_token_exchange :
    (∀ (st : RedditDownloader.RedditTokenState) (now : Int) (force : Bool) (payload : JVal)
        (tok : String) (e : Int),
      (!force && RedditDownloader.cacheValid st now) = false →
      RedditDownloader.fetch_new_token_parse payload = .ok (tok, e) →
      RedditDownloader.get_access_token st now force payload =
        .ok (tok, ⟨some tok, now + max (e - RedditDownloader.TOKEN_SAFETY_WINDOW) 0⟩,
          [.fetchToken])) ∧
    (∀ (fields : List (String × JVal)) (tok : String) (v : JVal),
      JVal.lookupField fields "access_token" = some (.str tok) → tok ≠ "" →
      JVal.lookupField fields "expires_in" = some v → pyIntOpt v = none →
      RedditDownloader.fetch_new_token_parse (.obj fields) = .ok (tok, 3600)) ∧
    (∀ (fields : List (String × JVal)),
      (JVal.lookupField fields "access_token" = none ∨
       JVal.lookupField fields "access_token" = some (.str "") ∨
       (∃ v, JVal.lookupField fields "access_token" = some v ∧ v.isStr = false)) →
      RedditDownloader.fetch_new_token_parse (.obj fields) =
        .error (.downloadError RedditDownloader.tokenErrMsg)) := by
  refine ⟨?_, ?_, ?_⟩
  · intro st now force payload tok e hslow hparse
    simp only [RedditDownloader.get_access_token, hslow, Bool.false_eq_true, if_false, hparse]
  · intro fields tok v h1 h2 h3 h4
    simp only [RedditDownloader.fetch_new_token_parse, jGetF, h1, h3, Option.getD_some]
    rw [if_neg h2]
    simp [h4]
  · intro fields h
    rcases h with h | h | ⟨v, hv, hvs⟩
    · simp [RedditDownloader.fetch_new_token_parse, jGetF, h]
    · simp [RedditDownloader.fetch_new_token_parse, jGetF, h]
    · simp only [RedditDownloader.fetch_new_token_parse, jGetF, hv, Option.getD_some]
      cases v <;> simp_all [JVal.isStr]

/-- Witness for `c6_token_exchange`: a forced refresh against a response
whose `expires_in` is the non-numeric string `soon` caches expiry
`now + max(3600 - 30, 0)`, and a response with an empty `access_token`
raises. -/
theorem c6_token_exchange_witness :
    RedditDownloader.get_access_token ⟨some "old", 50⟩ 0 true
        (.obj [("access_token", .str "tok"), ("expires_in", .str "soon")]) =
      .ok ("tok", ⟨some "tok", 0 + max (3600 - RedditDownloader.TOKEN_SAFETY_WINDOW) 0⟩,
        [.fetchToken]) ∧
    RedditDownloader.fetch_new_token_parse
        (.obj [("access_token", .str "tok"), ("expires_in", .str "soon")]) =
      .ok ("tok", 3600) ∧
    RedditDownloader.fetch_new_token_parse (.obj [("access_token", .str "")]) =
      .error (.downloadError RedditDownloader.tokenErrMsg) := by
  have hp : RedditDownloader.fetch_new_token_parse
      (.obj [("access_token", .str "tok"), ("expires_in", .str "soon")]) =
      .ok ("tok", 3600) :=
    c6_token_exchange.2.1 [("access_token", .str "tok"), ("expires_in", .str "soon")]
      "tok" (.str "soon") rfl (by decide) rfl (by decide)
  refine ⟨?_, hp, ?_⟩
  · exact c6_token_exchange.1 ⟨some "old", 50⟩ 0 true _ "tok" 3600 (by decide) hp
  · exact c6_token_exchange.2.2 [("access_token", .str "")] (Or.inr (Or.inl rfl))

/-! ## Theorems about the 401 retry protocol -/

namespace RedditDownloader

theorem authorized_get_cached (st : RedditTokenState) (now : Int) (payload : JVal)
    (status : Nat) (hvalid : cacheValid st now = true) :
    authorized_get st now false payload status =
      .ok (status, st, [.dataRequest false status]) := by
  simp [authorized_get, get_access_token, hvalid]

theorem authorized_get_fresh (st : RedditTokenState) (now : Int) (payload : JVal)
    (status : Nat) (tv : String) (ei : Int)
    (hvalid : cacheValid st now = false)
    (hparse : fetch_new_token_parse payload = .ok (tv, ei)) :
    authorized_get st now false payload status =
      .ok (status, ⟨some tv, now + max (ei - TOKEN_SAFETY_WINDOW) 0⟩,
        [.fetchToken, .dataRequest false status]) := by
  simp [authorized_get, get_access_token, hvalid, hparse]

theorem authorized_get_forced (st : RedditTokenState) (now : Int) (payload : JVal)
    (status : Nat) (tv : String) (ei : Int)
    (hparse : fetch_new_token_parse payload = .ok (tv, ei)) :
    authorized_get st now true payload status =
      .ok (status, ⟨some tv, now + max (ei - TOKEN_SAFETY_WINDOW) 0⟩,
        [.fetchToken, .dataRequest true status]) := by
  simp [authorized_get, get_access_token, hparse]

end RedditDownloader

/-- C5: for every authenticated Reddit data request (with a working token
endpoint), at most two data requests are issued; when the first response is
401 the events are exactly: (token fetch if the cache was cold,) the first
plain data request answered 401, the cache invalidation, a forced token
fetch, and the single retried data request; when the retry is answered 401
again the call fails with the 401 status error and no third data request
exists; a non-401 first response means exactly one data request. -/
theorem c5_retry_protocol (net : Nat → Nat) (st : RedditDownloader.RedditTokenState)
    (now : Int) (payload : JVal) (tv : String) (ei : Int)
    (hparse : RedditDownloader.fetch_new_token_parse payload = .ok (tv, ei)) :
    (((RedditDownloader.request_with_token net st now payload).2.1).filter
        RedditDownloader.RdEvent.isData).length ≤ 2 ∧
    (net 0 = 401 →
      (RedditDownloader.request_with_token net st now payload).2.1 =
        (if RedditDownloader.cacheValid st now then [] else [.fetchToken]) ++
          [.dataRequest false 401, .invalidateToken, .fetchToken,
           .dataRequest true (net 1)]) ∧
    (net 0 = 401 → net 1 = 401 →
      (RedditDownloader.request_with_token net st now payload).1 =
        .error (.httpStatusError 401)) ∧
    (net 0 ≠ 401 →
      ((RedditDownloader.request_with_token net st now payload).2.1).filter
        RedditDownloader.RdEvent.isData = [.dataRequest false (net 0)]) := by
  by_cases hvalid : RedditDownloader.cacheValid st now = true
  · by_cases hn : net 0 = 401
    · have h1 := RedditDownloader.authorized_get_cached st now payload 401 hvalid
      have h2 := RedditDownloader.authorized_get_forced (RedditDownloader.invalidate_token st)
        now payload (net 1) tv ei hparse
      refine ⟨?_, fun _ => ?_, fun _ h401 => ?_, fun hne => absurd hn hne⟩
      · simp [RedditDownloader.request_with_token, hn, h1, h2, hvalid,
          RedditDownloader.RdEvent.isData]
      · simp [RedditDownloader.request_with_token, hn, h1, h2, hvalid]
      · rw [h401] at h2
        simp [RedditDownloader.request_with_token, hn, h401, h1, h2,
          RedditDownloader.raise_for_status]
    · have h1 := RedditDownloader.authorized_get_cached st now payload (net 0) hvalid
      refine ⟨?_, fun h => absurd h hn, fun h => absurd h hn, fun _ => ?_⟩ <;>
        simp [RedditDownloader.request_with_token, h1, if_neg hn, hvalid,
          RedditDownloader.RdEvent.isData]
  · have hvalid2 : RedditDownloader.cacheValid st now = false := by
      revert hvalid
      cases RedditDownloader.cacheValid st now <;> simp
    by_cases hn : net 0 = 401
    · have h1 := RedditDownloader.authorized_get_fresh st now payload 401 tv ei hvalid2 hparse
      have h2 := RedditDownloader.authorized_get_forced
        (RedditDownloader.invalidate_token
          ⟨some tv, now + max (ei - RedditDownloader.TOKEN_SAFETY_WINDOW) 0⟩)
        now payload (net 1) tv ei hparse
      refine ⟨?_, fun _ => ?_, fun _ h401 => ?_, fun hne => absurd hn hne⟩
      · simp [RedditDownloader.request_with_token, hn, h1, h2, hvalid2,
          RedditDownloader.RdEvent.isData]
      · simp [RedditDownloader.request_with_token, hn, h1, h2, hvalid2]
      · rw [h401] at h2
        simp [RedditDownloader.request_with_token, hn, h401, h1, h2,
          RedditDownloader.raise_for_status]
    · have h1 := RedditDownloader.authorized_get_fresh st now payload (net 0) tv ei hvalid2 hparse
      refine ⟨?_, fun h => absurd h hn, fun h => absurd h hn, fun _ => ?_⟩ <;>
        simp [RedditDownloader.request_with_token, h1, if_neg hn, hvalid2,
          RedditDownloader.RdEvent.isData]

/-- Witness for `c5_retry_protocol`: a server answering 401 to both data
requests of the call, a cold cache and a good token endpoint — two data
requests, the invalidate-then-forced-refresh trace, and the propagated 401
failure. -/
theorem c5_retry_protocol_witness :
    (((RedditDownloader.request_with_token (fun _ => 401) ⟨none, 0⟩ 0
        (.obj [("access_token", .str "tok")])).2.1).filter
        RedditDownloader.RdEvent.isData).length ≤ 2 ∧
    (RedditDownloader.request_with_token (fun _ => 401) ⟨none, 0⟩ 0
        (.obj [("access_token", .str "tok")])).2.1 =
      [.fetchToken, .dataRequest false 401, .invalidateToken, .fetchToken,
       .dataRequest true 401] ∧
    (RedditDownloader.request_with_token (fun _ => 401) ⟨none, 0⟩ 0
        (.obj [("access_token", .str "tok")])).1 =
      .error (.httpStatusError 401) := by
  have h := c5_retry_protocol (fun _ => 401) ⟨none, 0⟩ 0
    (.obj [("access_token", .str "tok")]) "tok" 3600 rfl
  refine ⟨h.1, ?_, h.2.2.1 rfl rfl⟩
  have h2 := h.2.1 rfl
  simpa [RedditDownloader.cacheValid, optStrTruthy] using h2

/-! ## Theorems about Reddit post-id resolution -/

theorem extract_post_id_core_none (netloc path : String)
    (hcand : RedditDownloader.post_id_candidate (strLower netloc)
      (RedditDownloader.path_parts_of path) = none) :
    RedditDownloader.extract_post_id_core netloc path =
      .error (.downloadError RedditDownloader.resolveErrMsg) := by
  unfold RedditDownloader.extract_post_id_core
  rw [hcand]

theorem extract_post_id_core_some (netloc path c : String)
    (hcand : RedditDownloader.post_id_candidate (strLower netloc)
      (RedditDownloader.path_parts_of path) = some c) :
    RedditDownloader.extract_post_id_core netloc path =
      (if c = "" then .error (.downloadError RedditDownloader.resolveErrMsg)
       else if (splitBefore (splitBefore c '?') '#' = "" ||
           !RedditDownloader.isAlnumStr (splitBefore (splitBefore c '?') '#')) = true then
         .error (.downloadError RedditDownloader.postIdErrMsg)
       else .ok (splitBefore (splitBefore c '?') '#')) := by
  unfold RedditDownloader.extract_post_id_core
  rw [hcand]

/-- C8 (amended): `_extract_post_id` succeeds exactly for these path
shapes — the first path segment when the domain is the short domain
`redd.it`, the segment after a `comments` segment, the segment after a
leading `gallery`/`poll`, and additionally a single-segment path on any
other domain (the original claim restricted the `/`+id form to the short
domain) — and raises a resolution error when the path matches none of
these or when the candidate id, after stripping query and fragment, is not
alphanumeric. -/
theorem c8_post_id_shapes (netloc path : String) :
    ((RedditDownloader.post_id_candidate (strLower netloc)
        (RedditDownloader.path_parts_of path)).isSome ↔
      ((strEndsWith (strLower netloc) "redd.it" = true ∧
          RedditDownloader.path_parts_of path ≠ []) ∨
       (RedditDownloader.comments_candidate (RedditDownloader.path_parts_of path)).isSome ∨
       (strLower ((RedditDownloader.path_parts_of path).headD "") ∈ ["gallery", "poll"] ∧
          2 ≤ (RedditDownloader.path_parts_of path).length) ∨
       (RedditDownloader.path_parts_of path).length = 1)) ∧
    (∀ pid, RedditDownloader.extract_post_id_core netloc path = .ok pid →
      (RedditDownloader.post_id_candidate (strLower netloc)
        (RedditDownloader.path_parts_of path)).isSome ∧
      RedditDownloader.isAlnumStr pid = true) ∧
    (RedditDownloader.post_id_candidate (strLower netloc)
        (RedditDownloader.path_parts_of path) = none →
      RedditDownloader.extract_post_id_core netloc path =
        .error (.downloadError RedditDownloader.resolveErrMsg)) ∧
    (∀ c, RedditDownloader.post_id_candidate (strLower netloc)
        (RedditDownloader.path_parts_of path) = some c → c ≠ "" →
      RedditDownloader.isAlnumStr (splitBefore (splitBefore c '?') '#') = false →
      RedditDownloader.extract_post_id_core netloc path =
        .error (.downloadError RedditDownloader.postIdErrMsg)) := by
  refine ⟨?_, ?_, ?_, ?_⟩
  · unfold RedditDownloader.post_id_candidate
    by_cases h1 : strEndsWith (strLower netloc) "redd.it" = true
    · rw [if_pos h1]
      constructor
      · intro hs
        exact Or.inl ⟨h1, by
          intro hnil
          rw [hnil] at hs
          simp at hs⟩
      · intro _
        cases hp : RedditDownloader.path_parts_of path with
        | nil =>
          exfalso
          rcases ‹_ ∨ _› with ⟨-, hne⟩ | hrest
          · exact hne hp
          · rcases hrest with hc | ⟨-, hlen⟩ | hlen
            · rw [hp] at hc
              simp [RedditDownloader.comments_candidate] at hc
            · rw [hp] at hlen
              simp at hlen
            · rw [hp] at hlen
              simp at hlen
        | cons a rest => simp [hp]
    · rw [if_neg h1]
      cases hc : RedditDownloader.comments_candidate (RedditDownloader.path_parts_of path) with
      | some c =>
        simp only [Option.isSome_some, true_iff]
        exact Or.inr (Or.inl trivial)
      | none =>
        by_cases hemp : (RedditDownloader.path_parts_of path).isEmpty
        · rw [if_pos hemp]
          have hnil : RedditDownloader.path_parts_of path = [] := List.isEmpty_iff.mp hemp
          constructor
          · intro hs; simp at hs
          · intro hdisj
            exfalso
            rcases hdisj with ⟨hh, hne⟩ | hrest
            · exact absurd h1 (by simp [hh])
            · rcases hrest with hcc | ⟨-, hlen⟩ | hlen
              · simp at hcc
              · rw [hnil] at hlen; simp at hlen
              · rw [hnil] at hlen; simp at hlen
        · rw [if_neg hemp]
          have hne : RedditDownloader.path_parts_of path ≠ [] := by
            simpa [List.isEmpty_iff] using hemp
          by_cases hg : decide (strLower ((RedditDownloader.path_parts_of path).headD "") ∈
              ["gallery", "poll"]) && decide (2 ≤ (RedditDownloader.path_parts_of path).length)
          · rw [if_pos hg]
            simp only [Bool.and_eq_true, decide_eq_true_eq] at hg
            constructor
            · intro _; exact Or.inr (Or.inr (Or.inl hg))
            · intro _
              have hlt : 1 < (RedditDownloader.path_parts_of path).length := by omega
              simp [List.getElem?_eq_getElem hlt]
          · rw [if_neg hg]
            by_cases hlen : (RedditDownloader.path_parts_of path).length = 1
            · rw [if_pos hlen]
              constructor
              · intro _; exact Or.inr (Or.inr (Or.inr hlen))
              · intro _
                cases hp : RedditDownloader.path_parts_of path with
                | nil => exact absurd hp hne
                | cons a rest => simp
            · rw [if_neg hlen]
              constructor
              · intro hs; simp at hs
              · intro hdisj
                exfalso
                rcases hdisj with ⟨hh, -⟩ | hrest
                · exact absurd h1 (by simp [hh])
                · rcases hrest with hcc | hgp | hl1
                  · simp at hcc
                  · exact hg (by
                      simp only [Bool.and_eq_true, decide_eq_true_eq]
                      exact ⟨hgp.1, hgp.2⟩)
                  · exact hlen hl1
  · intro pid h
    cases hcand : RedditDownloader.post_id_candidate (strLower netloc)
        (RedditDownloader.path_parts_of path) with
    | none =>
      rw [extract_post_id_core_none netloc path hcand] at h
      simp at h
    | some c =>
      rw [extract_post_id_core_some netloc path c hcand] at h
      by_cases hc0 : c = ""
      · rw [if_pos hc0] at h; simp at h
      · rw [if_neg hc0] at h
        by_cases hbad : (splitBefore (splitBefore c '?') '#' = "" ||
            !RedditDownloader.isAlnumStr (splitBefore (splitBefore c '?') '#')) = true
        · rw [if_pos hbad] at h; simp at h
        · rw [if_neg hbad] at h
          simp only [Except.ok.injEq] at h
          subst h
          simp only [Bool.or_eq_true, Bool.not_eq_true', not_or] at hbad
          exact ⟨by simp, by simpa using hbad.2⟩
  · intro hnone
    exact extract_post_id_core_none netloc path hnone
  · intro c hcand hc0 hbad
    rw [extract_post_id_core_some netloc path c hcand]
    rw [if_neg hc0]
    have hbb : (splitBefore (splitBefore c '?') '#' = "" ||
        !RedditDownloader.isAlnumStr (splitBefore (splitBefore c '?') '#')) = true := by
      simp [hbad]
    rw [if_pos hbb]

/-- C8 counterexample: the claim limits the bare `/`+id shape to the
short domain, yet `_extract_post_id` also accepts a single-segment path
on the full domain: `https://www.reddit.com/abc123` resolves to `abc123`
although the domain is not the short domain, no `comments` segment exists
and the first segment is neither `gallery` nor `poll`. -/
theorem c8_counterexample :
    RedditDownloader.extract_post_id "https://www.reddit.com/abc123" = .ok "abc123" ∧
    strEndsWith (strLower "www.reddit.com") "redd.it" = false ∧
    RedditDownloader.comments_candidate (RedditDownloader.path_parts_of "/abc123") = none ∧
    ¬ (strLower ((RedditDownloader.path_parts_of "/abc123").headD "") ∈ ["gallery", "poll"]) := by
  refine ⟨by decide, by decide, by decide, by decide⟩

/-- Witness for `c8_post_id_shapes` at concrete URLs: a canonical
`comments` path resolves, a two-segment path without any id shape raises
the resolution error, and a non-alphanumeric candidate raises the post-id
error. -/
theorem c8_post_id_shapes_witness :
    (RedditDownloader.post_id_candidate (strLower "www.reddit.com")
        (RedditDownloader.path_parts_of "/r/pics/comments/abc123/title")).isSome ∧
    RedditDownloader.isAlnumStr "abc123" = true ∧
    RedditDownloader.extract_post_id_core "www.reddit.com" "/r/pics" =
      .error (.downloadError RedditDownloader.resolveErrMsg) ∧
    RedditDownloader.extract_post_id_core "www.reddit.com" "/comments/ab-c" =
      .error (.downloadError RedditDownloader.postIdErrMsg) := by
  refine ⟨?_, ?_, ?_, ?_⟩
  · exact ((c8_post_id_shapes "www.reddit.com" "/r/pics/comments/abc123/title").2.1
      "abc123" (by decide)).1
  · exact ((c8_post_id_shapes "www.reddit.com" "/r/pics/comments/abc123/title").2.1
      "abc123" (by decide)).2
  · exact (c8_post_id_shapes "www.reddit.com" "/r/pics").2.2.1 (by decide)
  · exact (c8_post_id_shapes "www.reddit.com" "/comments/ab-c").2.2.2 "ab-c"
      (by decide) (by decide) (by decide)

/-! ## Theorems about the Reddit gallery ordering -/

theorem except_ok_bind {ε α β : Type _} (a : α) (f : α → Except ε β) :
    (Except.ok a : Except ε α) >>= f = f a := rfl

theorem except_error_bind {ε α β : Type _} (e : ε) (f : α → Except ε β) :
    (Except.error e : Except ε α) >>= f = .error e := rfl

/-- A `media_metadata` entry with `valid` status and a preferred source
URL, as in the gallery test payloads. -/
def galleryEntry (u : String) : JVal :=
  .obj [("status", .str "valid"), ("s", .obj [("u", .str u)])]

/-- The same entry with a non-`valid` status. -/
def galleryEntryFailed (u : String) : JVal :=
  .obj [("status", .str "failed"), ("s", .obj [("u", .str u)])]

def galleryItem (m : String) : JVal :=
  .obj [("media_id", .str m)]

/-- A post with a `media_metadata` map and an explicit `gallery_data`
ordering list. -/
def galleryPost (md : List (String × JVal)) (items : List JVal) : JVal :=
  .obj [("media_metadata", .obj md), ("gallery_data", .obj [("items", .arr items)])]

/-- A post with a `media_metadata` map and no `gallery_data`. -/
def galleryPostNoOrder (md : List (String × JVal)) : JVal :=
  .obj [("media_metadata", .obj md)]

theorem normalize_url_some_imp (u v : String)
    (h : RedditDownloader.normalize_url u = some v) : u ≠ "" ∧ strTrim u ≠ "" := by
  unfold RedditDownloader.normalize_url at h
  by_cases h0 : u = ""
  · rw [if_pos h0] at h; simp at h
  · rw [if_neg h0] at h
    by_cases h1 : strTrim u = ""
    · rw [if_pos h1] at h; simp at h
    · exact ⟨h0, h1⟩

theorem resolve_gallery_url_valid_entry (u : String) (hu : strTrim u ≠ "") :
    RedditDownloader.resolve_gallery_url (galleryEntry u) = .ok (some u) := by
  have hne : u ≠ "" := by
    intro h0
    apply hu
    rw [h0]
    decide
  have hlow : strLower "valid" = "valid" := by decide
  simp [RedditDownloader.resolve_gallery_url, galleryEntry, jGetF, JVal.lookupField,
    jor, JVal.truthy, pyLower, hlow, pyIter, JVal.isObj, except_ok_bind,
    RedditDownloader.firstSourceUrl, JVal.objGet, hne, hu]

theorem except_pure {ε α : Type _} (a : α) : (pure a : Except ε α) = .ok a := rfl

theorem resolve_gallery_url_invalid (fields : List (String × JVal)) (st : String)
    (hst : jGetF fields "status" = .str st) (hval : strLower st ≠ "valid") :
    RedditDownloader.resolve_gallery_url (.obj fields) = .ok none := by
  simp only [RedditDownloader.resolve_gallery_url, hst]
  by_cases h0 : st = ""
  · subst h0
    have hl : strLower "" = "" := by decide
    simp [jor, JVal.truthy, pyLower, except_ok_bind, except_pure, hl]
  · have htr : JVal.truthy (.str st) = true := by simp [JVal.truthy, h0]
    simp [jor, htr, pyLower, except_ok_bind, except_pure, hval]

theorem extract_gallery_photos_obj (post : JVal) (md : List (String × JVal))
    (hmd : post.objGet "media_metadata" = .obj md) :
    RedditDownloader.extract_gallery_photos post =
      (RedditDownloader.gallery_ordered_ids post >>= fun ids =>
        RedditDownloader.gallery_photo_loop md
          (if ids.isEmpty then md.map Prod.fst else ids) []) := by
  unfold RedditDownloader.extract_gallery_photos
  rw [hmd]

/-- C4: when a post carries a `media_metadata` map, the extracted photos
follow the `gallery_data.items` media-id order whenever that list yields
at least one id, and fall back to the metadata map's iteration order only
when it yields none; entries whose status is not `valid` resolve to
nothing and are skipped.  In particular a gallery ordering `[m2, m1]`
over metadata inserted as `[m1, m2]` produces the photos in order
`[u2, u1]`, the same post without `gallery_data` produces `[u1, u2]`, and
an invalid `m1` entry leaves only `[u2]`. -/
theorem c4_gallery_order :
    (∀ (post : JVal) (md : List (String × JVal)) (ids : List String),
      post.objGet "media_metadata" = .obj md →
      RedditDownloader.gallery_ordered_ids post = .ok ids →
      (ids ≠ [] →
        RedditDownloader.extract_gallery_photos post =
          RedditDownloader.gallery_photo_loop md ids []) ∧
      (ids = [] →
        RedditDownloader.extract_gallery_photos post =
          RedditDownloader.gallery_photo_loop md (md.map Prod.fst) [])) ∧
    (∀ (fields : List (String × JVal)) (st : String),
      jGetF fields "status" = .str st → strLower st ≠ "valid" →
      RedditDownloader.resolve_gallery_url (.obj fields) = .ok none) ∧
    (∀ (m1 m2 u1 u2 v1 v2 : String), m1 ≠ m2 →
      RedditDownloader.normalize_url u1 = some v1 →
      RedditDownloader.normalize_url u2 = some v2 → v1 ≠ v2 →
      RedditDownloader.extract_gallery_photos
          (galleryPost [(m1, galleryEntry u1), (m2, galleryEntry u2)]
            [galleryItem m2, galleryItem m1]) = .ok [v2, v1] ∧
      RedditDownloader.extract_gallery_photos
          (galleryPostNoOrder [(m1, galleryEntry u1), (m2, galleryEntry u2)]) =
        .ok [v1, v2] ∧
      RedditDownloader.extract_gallery_photos
          (galleryPost [(m1, galleryEntryFailed u1), (m2, galleryEntry u2)]
            [galleryItem m2, galleryItem m1]) = .ok [v2]) := by
  refine ⟨?_, resolve_gallery_url_invalid, ?_⟩
  · intro post md ids hmd hids
    constructor
    · intro hne
      rw [extract_gallery_photos_obj post md hmd, hids, except_ok_bind]
      simp [List.isEmpty_iff, hne]
    · intro hnil
      rw [extract_gallery_photos_obj post md hmd, hids, except_ok_bind]
      simp [hnil]
  · intro m1 m2 u1 u2 v1 v2 h12 hn1 hn2 hv12
    obtain ⟨h1ne, h1t⟩ := normalize_url_some_imp u1 v1 hn1
    obtain ⟨h2ne, h2t⟩ := normalize_url_some_imp u2 v2 hn2
    have hr1 := resolve_gallery_url_valid_entry u1 h1t
    have hr2 := resolve_gallery_url_valid_entry u2 h2t
    have hrf : RedditDownloader.resolve_gallery_url (galleryEntryFailed u1) = .ok none := by
      apply resolve_gallery_url_invalid
        [("status", .str "failed"), ("s", .obj [("u", .str u1)])] "failed"
      · rfl
      · decide
    have h21 : m2 ≠ m1 := fun h => h12 h.symm
    refine ⟨?_, ?_, ?_⟩
    · have hids : RedditDownloader.gallery_ordered_ids
          (galleryPost [(m1, galleryEntry u1), (m2, galleryEntry u2)]
            [galleryItem m2, galleryItem m1]) = .ok [m2, m1] := rfl
      rw [extract_gallery_photos_obj
          (galleryPost [(m1, galleryEntry u1), (m2, galleryEntry u2)]
            [galleryItem m2, galleryItem m1])
          [(m1, galleryEntry u1), (m2, galleryEntry u2)] rfl,
        hids, except_ok_bind]
      simp only [List.isEmpty_cons, Bool.false_eq_true, if_false]
      simp [RedditDownloader.gallery_photo_loop, jGetF, JVal.lookupField, h12, h21,
        hr1, hr2, except_ok_bind, except_pure, h1ne, h2ne, hn1, hn2, hv12, Ne.symm hv12]
    · have hids : RedditDownloader.gallery_ordered_ids
          (galleryPostNoOrder [(m1, galleryEntry u1), (m2, galleryEntry u2)]) = .ok [] := rfl
      rw [extract_gallery_photos_obj
          (galleryPostNoOrder [(m1, galleryEntry u1), (m2, galleryEntry u2)])
          [(m1, galleryEntry u1), (m2, galleryEntry u2)] rfl,
        hids, except_ok_bind]
      simp only [List.isEmpty_nil, if_true, List.map_cons, List.map_nil]
      simp [RedditDownloader.gallery_photo_loop, jGetF, JVal.lookupField, h12, h21,
        hr1, hr2, except_ok_bind, except_pure, h1ne, h2ne, hn1, hn2, hv12, Ne.symm hv12]
    · have hids : RedditDownloader.gallery_ordered_ids
          (galleryPost [(m1, galleryEntryFailed u1), (m2, galleryEntry u2)]
            [galleryItem m2, galleryItem m1]) = .ok [m2, m1] := rfl
      rw [extract_gallery_photos_obj
          (galleryPost [(m1, galleryEntryFailed u1), (m2, galleryEntry u2)]
            [galleryItem m2, galleryItem m1])
          [(m1, galleryEntryFailed u1), (m2, galleryEntry u2)] rfl,
        hids, except_ok_bind]
      simp only [List.isEmpty_cons, Bool.false_eq_true, if_false]
      simp [RedditDownloader.gallery_photo_loop, jGetF, JVal.lookupField, h12, h21,
        hrf, hr2, except_ok_bind, except_pure, h1ne, h2ne, hn2, hv12]

/-- Witness for `c4_gallery_order` at concrete ids and URLs: gallery order
`[m2, m1]` yields the photos in that order, no gallery order falls back to
the map order, and an invalid first entry is skipped. -/
theorem c4_gallery_order_witness :
    RedditDownloader.extract_gallery_photos
        (galleryPost [("m1", galleryEntry "https://a.jpg"), ("m2", galleryEntry "https://b.jpg")]
          [galleryItem "m2", galleryItem "m1"]) =
      .ok ["https://b.jpg", "https://a.jpg"] ∧
    RedditDownloader.extract_gallery_photos
        (galleryPostNoOrder
          [("m1", galleryEntry "https://a.jpg"), ("m2", galleryEntry "https://b.jpg")]) =
      .ok ["https://a.jpg", "https://b.jpg"] ∧
    RedditDownloader.extract_gallery_photos
        (galleryPost
          [("m1", galleryEntryFailed "https://a.jpg"), ("m2", galleryEntry "https://b.jpg")]
          [galleryItem "m2", galleryItem "m1"]) =
      .ok ["https://b.jpg"] :=
  c4_gallery_order.2.2 "m1" "m2" "https://a.jpg" "https://b.jpg"
    "https://a.jpg" "https://b.jpg" (by decide) (by decide) (by decide) (by decide)

/-! ## Theorems about the no-empty-asset invariant -/

theorem build_asset_ok_inv (post : JVal) (a : RedditDownloader.RedditMediaAsset)
    (h : RedditDownloader.build_asset post = .ok a) :
    a.photos ≠ [] ∨ a.video_url ≠ none := by
  unfold RedditDownloader.build_asset at h
  cases hp : RedditDownloader.extract_photos post with
  | error e => rw [hp, except_error_bind] at h; simp at h
  | ok photos =>
    rw [hp, except_ok_bind] at h
    cases hv : RedditDownloader.extract_video post with
    | error e => rw [hv, except_error_bind] at h; simp at h
    | ok video =>
      rw [hv, except_ok_bind] at h
      by_cases hcond : (photos.isEmpty && !optStrTruthy video) = true
      · rw [if_pos hcond] at h; simp at h
      · rw [if_neg hcond] at h
        cases hc : RedditDownloader.build_caption post with
        | error e => rw [hc, except_error_bind] at h; simp at h
        | ok caption =>
          rw [hc, except_ok_bind, except_pure] at h
          simp only [Except.ok.injEq] at h
          subst h
          simp only [Bool.and_eq_true, Bool.not_eq_true', not_and] at hcond
          by_cases hphe : photos = []
          · right
            have := hcond (by simp [hphe])
            cases video with
            | none => simp [optStrTruthy] at this
            | some s => simp
          · left
            exact hphe

/-- The tail of `parse_payload` once the working object `tweet` is fixed
(twitter.py lines 93-105). -/
def twParseTail (tweet payload : JVal) : Except PyErr TwitterDownloader.TwitterMediaAsset :=
  TwitterDownloader.extract_caption tweet payload >>= fun caption =>
  TwitterDownloader.extract_photos tweet payload >>= fun photos =>
  TwitterDownloader.extract_video tweet payload >>= fun video_url =>
  if photos.isEmpty && !optStrTruthy video_url then
    Except.error (.downloadError TwitterDownloader.noMediaMsg)
  else
    pure ⟨caption, photos, video_url⟩

theorem parse_payload_obj (fields : List (String × JVal)) :
    TwitterDownloader.parse_payload (.obj fields) =
      (if (jGetF fields "tweet").truthy then twParseTail (jGetF fields "tweet") (.obj fields)
       else twParseTail (.obj fields) (.obj fields)) := rfl

theorem twParseTail_ok_inv (tweet payload : JVal)
    (a : TwitterDownloader.TwitterMediaAsset)
    (h : twParseTail tweet payload = .ok a) :
    a.photos ≠ [] ∨ a.video_url ≠ none := by
  unfold twParseTail at h
  cases hc : TwitterDownloader.extract_caption tweet payload with
  | error e => rw [hc, except_error_bind] at h; simp at h
  | ok caption =>
    rw [hc, except_ok_bind] at h
    cases hp : TwitterDownloader.extract_photos tweet payload with
    | error e => rw [hp, except_error_bind] at h; simp at h
    | ok photos =>
      rw [hp, except_ok_bind] at h
      cases hv : TwitterDownloader.extract_video tweet payload with
      | error e => rw [hv, except_error_bind] at h; simp at h
      | ok video =>
        rw [hv, except_ok_bind] at h
        by_cases hcond : (photos.isEmpty && !optStrTruthy video) = true
        · rw [if_pos hcond] at h; simp at h
        · rw [if_neg hcond, except_pure] at h
          simp only [Except.ok.injEq] at h
          subst h
          simp only [Bool.and_eq_true, Bool.not_eq_true', not_and] at hcond
          by_cases hphe : photos = []
          · right
            have := hcond (by simp [hphe])
            cases video with
            | none => simp [optStrTruthy] at this
            | some s => simp
          · left
            exact hphe

theorem parse_payload_ok_inv (p : JVal) (a : TwitterDownloader.TwitterMediaAsset)
    (h : TwitterDownloader.parse_payload p = .ok a) :
    a.photos ≠ [] ∨ a.video_url ≠ none := by
  cases p with
  | null => simp [TwitterDownloader.parse_payload, JVal.truthy, except_error_bind] at h
  | bool b =>
    cases b <;>
      simp [TwitterDownloader.parse_payload, JVal.truthy, except_error_bind] at h
  | num n =>
    by_cases hn : n = 0 <;>
      simp [TwitterDownloader.parse_payload, JVal.truthy, JVal.objGet, hn,
        except_error_bind] at h
  | str s =>
    by_cases hs : s = "" <;>
      simp [TwitterDownloader.parse_payload, JVal.truthy, hs, except_error_bind] at h
  | arr l =>
    cases l <;>
      simp [TwitterDownloader.parse_payload, JVal.truthy, except_error_bind] at h
  | obj fields =>
    rw [parse_payload_obj] at h
    by_cases ht : (jGetF fields "tweet").truthy = true
    · rw [if_pos ht] at h
      exact twParseTail_ok_inv (jGetF fields "tweet") (.obj fields) a h
    · rw [if_neg ht] at h
      exact twParseTail_ok_inv (.obj fields) (.obj fields) a h

/-- For the crosspost-free null post the fuel argument is irrelevant. -/
theorem extract_video_fuel_crosspost_free_null :
    ∀ fuel, RedditDownloader.extract_video_fuel fuel JVal.null = .ok none := by
  intro fuel
  cases fuel with
  | zero => rfl
  | succ n => rfl

theorem extract_video_null : RedditDownloader.extract_video JVal.null = .ok none :=
  extract_video_fuel_crosspost_free_null _

/-- For a crosspost-free post holding only an image URL the fuel argument is
irrelevant and no video is found. -/
theorem extract_video_fuel_crosspost_free_imgpost :
    ∀ fuel, RedditDownloader.extract_video_fuel fuel
      (JVal.obj [("url", JVal.str "https://a.jpg")]) = .ok none := by
  intro fuel
  cases fuel with
  | zero => rfl
  | succ n => rfl

theorem extract_video_imgpost :
    RedditDownloader.extract_video (JVal.obj [("url", JVal.str "https://a.jpg")]) = .ok none :=
  extract_video_fuel_crosspost_free_imgpost _

theorem build_asset_no_media (post : JVal)
    (hp : RedditDownloader.extract_photos post = .ok [])
    (hv : RedditDownloader.extract_video post = .ok none) :
    RedditDownloader.build_asset post = .error (.downloadError RedditDownloader.noMediaMsg) := by
  unfold RedditDownloader.build_asset
  rw [hp, except_ok_bind, hv, except_ok_bind]
  rfl

theorem parse_payload_no_media (fields : List (String × JVal)) (tweet : JVal) (c : String)
    (htw : tweet = (if (jGetF fields "tweet").truthy then jGetF fields "tweet" else .obj fields))
    (hc : TwitterDownloader.extract_caption tweet (.obj fields) = .ok c)
    (hp : TwitterDownloader.extract_photos tweet (.obj fields) = .ok [])
    (hv : TwitterDownloader.extract_video tweet (.obj fields) = .ok none) :
    TwitterDownloader.parse_payload (.obj fields) =
      .error (.downloadError TwitterDownloader.noMediaMsg) := by
  rw [parse_payload_obj]
  by_cases ht : (jGetF fields "tweet").truthy = true
  · rw [if_pos ht] at htw
    subst htw
    rw [if_pos ht]
    unfold twParseTail
    rw [hc, except_ok_bind, hp, except_ok_bind, hv, except_ok_bind]
    rfl
  · rw [if_neg ht] at htw
    subst htw
    rw [if_neg ht]
    unfold twParseTail
    rw [hc, except_ok_bind, hp, except_ok_bind, hv, except_ok_bind]
    rfl

/-- Concrete evaluation of `build_asset` on an image-only post, used to
instantiate the success side of the invariant. -/
theorem build_asset_imgpost :
    RedditDownloader.build_asset (JVal.obj [("url", JVal.str "https://a.jpg")]) =
      .ok ⟨"Reddit", ["https://a.jpg"], none⟩ := by
  unfold RedditDownloader.build_asset
  rw [show RedditDownloader.extract_photos (JVal.obj [("url", JVal.str "https://a.jpg")]) =
        .ok ["https://a.jpg"] from by decide,
      except_ok_bind, extract_video_imgpost, except_ok_bind]
  rfl

/-- **C1.**  The no-empty-asset invariant, amended.  (1) Any asset returned
by `RedditDownloader._build_asset` has non-empty photos or a set video URL;
(2) likewise for `TwitterDownloader._parse_payload`; (3) when both Reddit
extractions complete empty, `_build_asset` raises the no-media error;
(4) when the Twitter extractions on the resolved working object all
complete empty, `_parse_payload` raises the no-media error.  (The original
claim's stronger dichotomy — a media asset or the no-media error for
*every* payload — fails on mistyped payloads, where a type error
propagates instead; see the counterexample.) -/
theorem c1_no_empty_asset :
    (∀ (post : JVal) (a : RedditDownloader.RedditMediaAsset),
        RedditDownloader.build_asset post = .ok a →
        a.photos ≠ [] ∨ a.video_url ≠ none) ∧
    (∀ (p : JVal) (a : TwitterDownloader.TwitterMediaAsset),
        TwitterDownloader.parse_payload p = .ok a →
        a.photos ≠ [] ∨ a.video_url ≠ none) ∧
    (∀ post : JVal,
        RedditDownloader.extract_photos post = .ok [] →
        RedditDownloader.extract_video post = .ok none →
        RedditDownloader.build_asset post =
          .error (.downloadError RedditDownloader.noMediaMsg)) ∧
    (∀ (fields : List (String × JVal)) (tweet : JVal) (c : String),
        tweet = (if (jGetF fields "tweet").truthy then jGetF fields "tweet" else .obj fields) →
        TwitterDownloader.extract_caption tweet (.obj fields) = .ok c →
        TwitterDownloader.extract_photos tweet (.obj fields) = .ok [] →
        TwitterDownloader.extract_video tweet (.obj fields) = .ok none →
        TwitterDownloader.parse_payload (.obj fields) =
          .error (.downloadError TwitterDownloader.noMediaMsg)) :=
  ⟨build_asset_ok_inv, parse_payload_ok_inv, build_asset_no_media, parse_payload_no_media⟩

/-- **C1 (counterexample).**  A payload whose `tweet` field is the number 5
makes `_parse_payload` call `.get` on an `int`, so a type error escapes:
the claimed dichotomy "media asset or no-media error" does not cover it. -/
theorem c1_counterexample :
    TwitterDownloader.parse_payload (.obj [("tweet", .num 5)]) = .error .typeError ∧
    (PyErr.typeError : PyErr) ≠ .downloadError TwitterDownloader.noMediaMsg := by decide

/-- Witness for `c1_no_empty_asset`: each conjunct instantiated at a
concrete payload with its hypotheses discharged by evaluation. -/
theorem c1_no_empty_asset_witness :
    (["https://a.jpg"] ≠ ([] : List String) ∨ (none : Option String) ≠ none) ∧
    (["https://p.jpg"] ≠ ([] : List String) ∨ (none : Option String) ≠ none) ∧
    RedditDownloader.build_asset JVal.null =
      .error (.downloadError RedditDownloader.noMediaMsg) ∧
    TwitterDownloader.parse_payload (.obj [("text", .str "hi")]) =
      .error (.downloadError TwitterDownloader.noMediaMsg) := by
  refine ⟨?_, ?_, ?_, ?_⟩
  · exact c1_no_empty_asset.1 (JVal.obj [("url", JVal.str "https://a.jpg")])
      ⟨"Reddit", ["https://a.jpg"], none⟩ build_asset_imgpost
  · exact c1_no_empty_asset.2.1
      (.obj [("tweet", .obj [("media", .arr [.obj [("type", .str "photo"),
        ("url", .str "https://p.jpg")]])])])
      ⟨"", ["https://p.jpg"], none⟩ (by decide)
  · exact c1_no_empty_asset.2.2.1 JVal.null (by decide) extract_video_null
  · exact c1_no_empty_asset.2.2.2 [("text", .str "hi")] (.obj [("text", .str "hi")]) "hi"
      rfl (by decide) (by decide) (by decide)
/-! ## Theorems about the Twitter variant selector -/

/-- JSON encoding of an optional declared bitrate. -/
def optIntToJ : Option Int → JVal
  | some n => .num n
  | none => .null

/-- Declared score of a candidate: its bitrate, defaulting to 0. -/
def twScore (c : String × Option Int) : Int := c.2.getD 0

/-- The acceptance gate of `consider`: a truthy URL whose normalization is
a video URL. -/
def twAccept (c : String × Option Int) : Bool :=
  c.1 != "" && TwitterDownloader.is_video_url (TwitterDownloader.normalize_url c.1)

/-- Eligibility against the running best score: accepted and strictly
better. -/
def twElig (s : Int) (c : String × Option Int) : Bool :=
  twAccept c && decide (s < twScore c)

/-- The pure state step `consider` performs on a well-typed candidate. -/
def twStep (st : TwitterDownloader.VideoSel) (c : String × Option Int) :
    TwitterDownloader.VideoSel :=
  if twElig st.2 c then (some (TwitterDownloader.normalize_url c.1), twScore c) else st

/-- Driving the source's `consider` over a list of well-typed candidates,
as the variants loops do. -/
def considerRun : List (String × Option Int) → TwitterDownloader.VideoSel →
    Except PyErr TwitterDownloader.VideoSel
  | [], st => pure st
  | c :: rest, st => do
    let st ← TwitterDownloader.consider st (.str c.1) (optIntToJ c.2)
    considerRun rest st

/-- The specification's selection rule, written from its words: the first
candidate attaining the maximum score. -/
def specFirstMaxBy {α : Type} (score : α → Int) : List α → Option α
  | [] => none
  | x :: xs =>
    match specFirstMaxBy score xs with
    | none => some x
    | some y => if score y > score x then some y else some x

theorem consider_typed (st : TwitterDownloader.VideoSel) (u : String) (b : Option Int) :
    TwitterDownloader.consider st (.str u) (optIntToJ b) = .ok (twStep st (u, b)) := by
  by_cases hu : u = ""
  · subst hu; rfl
  · have htr : (JVal.str u).truthy = true := by simp [JVal.truthy, hu]
    unfold TwitterDownloader.consider
    rw [htr]
    simp only [Bool.not_true, Bool.false_eq_true, if_false]
    rw [show asStr (JVal.str u) = .ok u from rfl, except_ok_bind]
    by_cases hv : TwitterDownloader.is_video_url (TwitterDownloader.normalize_url u) = true
    · rw [hv]
      simp only [Bool.not_true, Bool.false_eq_true, if_false]
      have hscore : pyInt (jor (optIntToJ b) (.num 0)) = .ok (twScore (u, b)) := by
        cases b with
        | none => rfl
        | some n =>
          by_cases hn : n = 0
          · subst hn; rfl
          · simp [optIntToJ, jor, JVal.truthy, pyInt, twScore, hn]
      rw [hscore, except_ok_bind]
      have hacc : twAccept (u, b) = true := by
        simp [twAccept, hu, hv]
      by_cases hlt : st.2 < twScore (u, b)
      · rw [if_pos hlt]
        have helig : twElig st.2 (u, b) = true := by simp [twElig, hacc, hlt]
        rw [twStep, if_pos helig]
        rfl
      · rw [if_neg hlt]
        have helig : twElig st.2 (u, b) = false := by simp [twElig, hlt]
        rw [twStep, if_neg (by simp [helig])]
        rfl
    · rw [Bool.not_eq_true] at hv
      rw [hv]
      simp only [Bool.not_false, if_true]
      have helig : twElig st.2 (u, b) = false := by simp [twElig, twAccept, hv]
      rw [twStep, if_neg (by simp [helig])]
      rfl

theorem considerRun_eq_foldl (cs : List (String × Option Int))
    (st : TwitterDownloader.VideoSel) :
    considerRun cs st = .ok (cs.foldl twStep st) := by
  induction cs generalizing st with
  | nil => rfl
  | cons c rest ih =>
    unfold considerRun
    rw [consider_typed, except_ok_bind]
    exact ih _

theorem variants_loop_run (cs : List (String × Option Int))
    (st : TwitterDownloader.VideoSel) :
    TwitterDownloader.variants_loop
        (cs.map fun c => .obj [("url", .str c.1), ("bitrate", optIntToJ c.2)]) st =
      considerRun cs st := by
  induction cs generalizing st with
  | nil => rfl
  | cons c rest ih =>
    simp only [List.map_cons]
    unfold considerRun
    rw [show TwitterDownloader.variants_loop
          (JVal.obj [("url", JVal.str c.1), ("bitrate", optIntToJ c.2)] ::
            List.map (fun c => JVal.obj [("url", JVal.str c.1), ("bitrate", optIntToJ c.2)]) rest)
          st =
        (TwitterDownloader.consider st (JVal.str c.1) (optIntToJ c.2) >>= fun st =>
          TwitterDownloader.variants_loop
            (List.map (fun c => JVal.obj [("url", JVal.str c.1), ("bitrate", optIntToJ c.2)]) rest)
            st) from rfl]
    rw [consider_typed, except_ok_bind, except_ok_bind]
    exact ih _
theorem specFirstMaxBy_none {α : Type} (score : α → Int) (l : List α) :
    specFirstMaxBy score l = none ↔ l = [] := by
  cases l with
  | nil => simp [specFirstMaxBy]
  | cons x xs =>
    simp only [specFirstMaxBy]
    cases specFirstMaxBy score xs with
    | none => simp
    | some y => by_cases h : score y > score x <;> simp [h]

theorem specFirstMaxBy_mem {α : Type} (score : α → Int) (l : List α) (y : α)
    (h : specFirstMaxBy score l = some y) : y ∈ l := by
  induction l with
  | nil => simp [specFirstMaxBy] at h
  | cons x xs ih =>
    simp only [specFirstMaxBy] at h
    split at h
    · simp only [Option.some.injEq] at h
      subst h
      exact List.mem_cons_self x xs
    · next z hrec =>
        by_cases hs : score z > score x
        · rw [if_pos hs] at h
          simp only [Option.some.injEq] at h
          subst h
          exact List.mem_cons_of_mem x (ih hrec)
        · rw [if_neg hs] at h
          simp only [Option.some.injEq] at h
          subst h
          exact List.mem_cons_self x xs

theorem twElig_mono (s t : Int) (hst : s ≤ t) (c : String × Option Int)
    (h : twElig t c = true) : twElig s c = true := by
  simp only [twElig, Bool.and_eq_true, decide_eq_true_eq] at h ⊢
  exact ⟨h.1, by omega⟩

theorem twFilter_none_mono (l : List (String × Option Int)) (s t : Int) (hst : s ≤ t)
    (h : l.filter (twElig s) = []) : l.filter (twElig t) = [] := by
  rw [List.filter_eq_nil_iff] at h ⊢
  intro a ha hcon
  exact h a ha (twElig_mono s t hst a hcon)

theorem twSel_threshold (l : List (String × Option Int)) (s t : Int) (hst : s ≤ t) :
    ∀ d, specFirstMaxBy twScore (l.filter (twElig s)) = some d →
      (t < twScore d → specFirstMaxBy twScore (l.filter (twElig t)) = some d) ∧
      (twScore d ≤ t → specFirstMaxBy twScore (l.filter (twElig t)) = none) := by
  induction l with
  | nil => intro d h; simp [specFirstMaxBy] at h
  | cons x l ih =>
    intro d h
    by_cases hx : twElig s x = true
    · rw [List.filter_cons, if_pos hx] at h
      simp only [specFirstMaxBy] at h
      have haccx : twAccept x = true := by
        have hx' := hx
        simp only [twElig, Bool.and_eq_true] at hx'
        exact hx'.1
      split at h
      · next hrec =>
          simp only [Option.some.injEq] at h
          subst h
          have hemp : l.filter (twElig s) = [] := (specFirstMaxBy_none _ _).mp hrec
          refine ⟨fun hlt => ?_, fun hle => ?_⟩
          · have hxt : twElig t x = true := by
              simp only [twElig, haccx, Bool.true_and, decide_eq_true_eq]
              exact hlt
            rw [List.filter_cons, if_pos hxt, twFilter_none_mono l s t hst hemp]
            rfl
          · have hxt : ¬twElig t x = true := by
              simp only [twElig, Bool.and_eq_true, decide_eq_true_eq, not_and]
              intro _
              omega
            rw [List.filter_cons, if_neg hxt, twFilter_none_mono l s t hst hemp]
            rfl
      · next y hrec =>
          have hy := ih y hrec
          by_cases hgt : twScore y > twScore x
          · rw [if_pos hgt] at h
            simp only [Option.some.injEq] at h
            subst h
            refine ⟨fun hlt => ?_, fun hle => ?_⟩
            · by_cases hxt : twElig t x = true
              · rw [List.filter_cons, if_pos hxt]
                simp only [specFirstMaxBy]
                rw [hy.1 hlt]
                simp [hgt]
              · rw [List.filter_cons, if_neg hxt]
                exact hy.1 hlt
            · have hxt : ¬twElig t x = true := by
                simp only [twElig, Bool.and_eq_true, decide_eq_true_eq, not_and]
                intro _
                omega
              rw [List.filter_cons, if_neg hxt]
              exact hy.2 hle
          · rw [if_neg hgt] at h
            simp only [Option.some.injEq] at h
            subst h
            refine ⟨fun hlt => ?_, fun hle => ?_⟩
            · have hxt : twElig t x = true := by
                simp only [twElig, haccx, Bool.true_and, decide_eq_true_eq]
                exact hlt
              rw [List.filter_cons, if_pos hxt]
              simp only [specFirstMaxBy]
              by_cases hyt : t < twScore y
              · rw [hy.1 hyt]
                simp [hgt]
              · rw [hy.2 (by omega)]
            · have hxt : ¬twElig t x = true := by
                simp only [twElig, Bool.and_eq_true, decide_eq_true_eq, not_and]
                intro _
                omega
              rw [List.filter_cons, if_neg hxt]
              exact hy.2 (by omega)
    · have hxt : ¬twElig t x = true := by
        intro he
        exact hx (twElig_mono s t hst x he)
      rw [List.filter_cons, if_neg hx] at h
      rw [List.filter_cons, if_neg hxt]
      exact ih d h
theorem twElig_lt (s : Int) (c : String × Option Int) (h : twElig s c = true) :
    s < twScore c := by
  simp only [twElig, Bool.and_eq_true, decide_eq_true_eq] at h
  exact h.2

theorem twElig_accept (s : Int) (c : String × Option Int) (h : twElig s c = true) :
    twAccept c = true := by
  simp only [twElig, Bool.and_eq_true] at h
  exact h.1

theorem specFirstMaxBy_cons {α : Type} (score : α → Int) (x : α) (xs : List α) :
    specFirstMaxBy score (x :: xs) =
      match specFirstMaxBy score xs with
      | none => some x
      | some y => if score y > score x then some y else some x := by
  rw [specFirstMaxBy]

theorem twSel_cons (l : List (String × Option Int)) :
    ∀ (c : String × Option Int) (s0 : Int), twElig s0 c = true →
      specFirstMaxBy twScore (c :: l.filter (twElig s0)) =
        some ((specFirstMaxBy twScore (l.filter (twElig (twScore c)))).getD c) := by
  induction l with
  | nil =>
    intro c s0 hc
    simp [specFirstMaxBy]
  | cons x l ih =>
    intro c s0 hc
    have hsc : s0 < twScore c := twElig_lt s0 c hc
    by_cases hx : twElig s0 x = true
    · by_cases hxc : twScore c < twScore x
      · have hx' : twElig (twScore c) x = true := by
          simp only [twElig, twElig_accept s0 x hx, Bool.true_and, decide_eq_true_eq]
          exact hxc
        rw [List.filter_cons, if_pos hx]
        rw [specFirstMaxBy_cons, ih x s0 hx]
        rw [List.filter_cons, if_pos hx', ih x (twScore c) hx']
        have hkey :
            twScore ((specFirstMaxBy twScore (l.filter (twElig (twScore x)))).getD x) >
              twScore c := by
          cases hrec : specFirstMaxBy twScore (l.filter (twElig (twScore x))) with
          | none => simpa using hxc
          | some d =>
            have hdm := specFirstMaxBy_mem twScore _ d hrec
            have hd : twScore x < twScore d := twElig_lt _ _ (List.of_mem_filter hdm)
            simp only [Option.getD_some]
            omega
        simp [hkey]
      · have hx' : ¬twElig (twScore c) x = true := by
          simp only [twElig, Bool.and_eq_true, decide_eq_true_eq, not_and]
          intro _
          omega
        rw [List.filter_cons, if_pos hx]
        rw [specFirstMaxBy_cons, ih x s0 hx]
        rw [List.filter_cons, if_neg hx']
        cases hrec : specFirstMaxBy twScore (l.filter (twElig (twScore x))) with
        | none =>
          have hemp' := twFilter_none_mono l (twScore x) (twScore c) (by omega)
            ((specFirstMaxBy_none _ _).mp hrec)
          rw [(specFirstMaxBy_none twScore _).mpr hemp']
          simp [show ¬twScore x > twScore c from by omega]
        | some d =>
          have hth := twSel_threshold l (twScore x) (twScore c) (by omega) d hrec
          by_cases hdc : twScore c < twScore d
          · rw [hth.1 hdc]
            simp [show twScore d > twScore c from hdc]
          · rw [hth.2 (by omega)]
            simp [show ¬twScore d > twScore c from by omega]
    · have hx' : ¬twElig (twScore c) x = true := by
        intro he
        exact hx (twElig_mono s0 (twScore c) (by omega) x he)
      rw [List.filter_cons, if_neg hx, List.filter_cons, if_neg hx']
      exact ih c s0 hc

theorem twFold_selects (cs : List (String × Option Int)) :
    ∀ (b0 : Option String) (s0 : Int),
      cs.foldl twStep (b0, s0) =
        match specFirstMaxBy twScore (cs.filter (twElig s0)) with
        | none => (b0, s0)
        | some d => (some (TwitterDownloader.normalize_url d.1), twScore d) := by
  induction cs with
  | nil =>
    intro b0 s0
    rfl
  | cons c cs ih =>
    intro b0 s0
    rw [List.foldl_cons]
    by_cases hc : twElig s0 c = true
    · have hstep : twStep (b0, s0) c =
          (some (TwitterDownloader.normalize_url c.1), twScore c) := by
        unfold twStep
        rw [if_pos hc]
      rw [hstep, ih, List.filter_cons, if_pos hc, twSel_cons cs c s0 hc]
      cases hrec : specFirstMaxBy twScore (cs.filter (twElig (twScore c))) with
      | none => simp
      | some d => simp
    · have hstep : twStep (b0, s0) c = (b0, s0) := by
        unfold twStep
        rw [if_neg hc]
      rw [hstep, ih, List.filter_cons, if_neg hc]

/-- **C3.**  The Twitter variant selector, amended.  (1) A candidate whose
normalized URL is not a video URL is discarded: `consider` leaves the
selection state unchanged.  (2) The source's variants loop over well-typed
variant objects is exactly `consider` driven over the (url, bitrate)
candidates.  (3) Driving `consider` from the initial state `(None, -1)`
selects the first candidate attaining the maximum declared bitrate
(a missing bitrate scoring 0, ties keeping the first-encountered
candidate) — but only among accepted candidates whose score strictly
exceeds the initial best score −1; in particular candidates whose declared
bitrate is negative can never be selected, which the original claim's
unconditional maximum-bitrate rule misses (see the counterexample). -/
theorem c3_variant_selector :
    (∀ (st : TwitterDownloader.VideoSel) (u : String) (b : Option Int),
        TwitterDownloader.is_video_url (TwitterDownloader.normalize_url u) = false →
        TwitterDownloader.consider st (.str u) (optIntToJ b) = .ok st) ∧
    (∀ (cs : List (String × Option Int)) (st : TwitterDownloader.VideoSel),
        TwitterDownloader.variants_loop
            (cs.map fun c => .obj [("url", .str c.1), ("bitrate", optIntToJ c.2)]) st =
          considerRun cs st) ∧
    (∀ cs : List (String × Option Int),
        considerRun cs ((none : Option String), (-1 : Int)) =
          .ok (match specFirstMaxBy twScore (cs.filter (twElig (-1))) with
               | none => ((none : Option String), (-1 : Int))
               | some d => (some (TwitterDownloader.normalize_url d.1), twScore d))) := by
  refine ⟨?_, variants_loop_run, ?_⟩
  · intro st u b hv
    rw [consider_typed]
    have helig : twElig st.2 (u, b) = false := by simp [twElig, twAccept, hv]
    simp [twStep, helig]
  · intro cs
    rw [considerRun_eq_foldl, twFold_selects]

/-- **C3 (counterexample).**  A sole candidate with a declared bitrate of
−5 is an acceptable video URL yet is never selected: its score does not
exceed the initial best score −1, so `_extract_video` returns `None`
instead of that maximum-bitrate candidate. -/
theorem c3_counterexample :
    TwitterDownloader.extract_video
        (.obj [("video", .obj [("url", .str "https://a.mp4"), ("bitrate", .num (-5))])])
        (.obj []) = .ok none ∧
    TwitterDownloader.is_video_url
      (TwitterDownloader.normalize_url "https://a.mp4") = true := by decide

/-- Witness for `c3_variant_selector`: a non-video URL is discarded even
with bitrate 999; the variants-loop bridge at a concrete variant object;
and a concrete run where the first of two bitrate-9 candidates beats a
bitrate-5 one. -/
theorem c3_variant_selector_witness :
    TwitterDownloader.is_video_url (TwitterDownloader.normalize_url "https://a.jpg") = false ∧
    TwitterDownloader.consider ((none : Option String), (-1 : Int)) (.str "https://a.jpg")
        (optIntToJ (some 999)) = .ok ((none : Option String), (-1 : Int)) ∧
    TwitterDownloader.variants_loop
        [.obj [("url", JVal.str "https://a.mp4"), ("bitrate", optIntToJ (some 5))]]
        ((none : Option String), (-1 : Int)) =
      considerRun [("https://a.mp4", some 5)] ((none : Option String), (-1 : Int)) ∧
    considerRun [("https://a.mp4", some 5), ("https://b.mp4", some 9), ("https://c.mp4", some 9)]
        ((none : Option String), (-1 : Int)) = .ok (some "https://b.mp4", 9) := by
  refine ⟨by decide, ?_, ?_, ?_⟩
  · exact c3_variant_selector.1 _ "https://a.jpg" (some 999) (by decide)
  · exact c3_variant_selector.2.1 [("https://a.mp4", some 5)] _
  · exact (c3_variant_selector.2.2 [("https://a.mp4", some 5), ("https://b.mp4", some 9),
      ("https://c.mp4", some 9)]).trans (by decide)
